import Mathlib

/-!
Verification of the OSGB → 3D Tiles conversion pipeline of `RealScene3D.Lib`
(`src/RealScene3D.Lib/OSGB/Native/`), via a shallow embedding of the relevant
C++ functions.  Bytes are modelled as `Nat` (< 256 where produced), C++
`double` arithmetic is modelled exactly over `ℚ` (the operations involved are
ring operations, division by constants and comparisons), and the trigonometric
and square-root library calls of the geodetic code are abstracted as function
parameters, since only the compositional structure of that code is at stake.
-/

/-! ## Byte-level helpers (PutVal / std::string byte buffers) -/

/-- `PutVal(buf, (int)val)` appends the four bytes of a 32-bit value in
little-endian order (`OSGB23dTiles.cpp`, `PutVal`, x86 little-endian layout). -/
def putValU32 (n : Nat) : List Nat :=
  [n % 256, n / 256 % 256, n / 65536 % 256, n / 16777216 % 256]

/-- The bytes of an ASCII string literal. -/
def strBytes (s : String) : List Nat :=
  s.toList.map Char.toNat

/-! ## C1: `OSGB23dTiles::ToB3DMBuf` (OSGB23dTiles.cpp:1580-1653) -/

/-- The feature-table JSON `{"BATCH_LENGTH":1}` built at
OSGB23dTiles.cpp:1602-1605 (`mesh_count` is the constant 1). -/
def featureJsonBase : String := "\x7b\"BATCH_LENGTH\":1\x7d"

/-- The batch-table JSON for `mesh_count = 1`: nlohmann::json serializes the
object with keys in sorted order and no spaces, so
`batch_json.dump()` is `{"batchId":[0],"name":["mesh_0"]}`
(OSGB23dTiles.cpp:1611-1628). -/
def batchJsonBase : String := "\x7b\"batchId\":[0],\"name\":[\"mesh_0\"]\x7d"

/-- `while ((s.size() + 28) % 8 != 0) s.push_back(' ')`
(OSGB23dTiles.cpp:1606-1609), written as appending the number of spaces the
loop performs. -/
def padFeatureJson (s : List Nat) : List Nat :=
  s ++ List.replicate ((8 - (s.length + 28) % 8) % 8) 32

/-- `while (s.size() % 8 != 0) s.push_back(' ')` (OSGB23dTiles.cpp:1629-1632). -/
def padBatchJson (s : List Nat) : List Nat :=
  s ++ List.replicate ((8 - s.length % 8) % 8) 32

/-- `OSGB23dTiles::ToB3DMBuf` (OSGB23dTiles.cpp:1580-1653), given the GLB
buffer produced by `ToGLBBuf`.  The b3dm output is the 28-byte header
(magic, version, total length, feature/batch table lengths) followed by the
padded feature-table JSON, the padded batch-table JSON, and the GLB bytes. -/
def toB3DMBuf (glb : List Nat) : List Nat :=
  let ft := padFeatureJson (strBytes featureJsonBase)
  let bt := padBatchJson (strBytes batchJsonBase)
  let totalLen := 28 + ft.length + bt.length + glb.length
  strBytes "b3dm" ++ putValU32 1 ++ putValU32 totalLen ++ putValU32 ft.length
    ++ putValU32 0 ++ putValU32 bt.length ++ putValU32 0 ++ ft ++ bt ++ glb

/-- Claim C1: every B3DM buffer produced by `ToB3DMBuf` starts with the bytes
"b3dm", the little-endian u32 version 1 and five little-endian u32 fields;
the feature-table and batch-table binary lengths are 0; the total length is
28 plus the padded feature-table JSON length plus the padded batch-table JSON
length plus the GLB length; the feature-table JSON is space-padded until
`(28 + len) % 8 == 0`, the batch-table JSON is space-padded to a multiple
of 8; and the body is header ++ feature JSON ++ batch JSON ++ GLB. -/
theorem toB3DMBuf_layout (glb : List Nat) :
    ∃ ft bt : List Nat,
      ft = strBytes featureJsonBase ++ List.replicate 2 32 ∧
      bt = strBytes batchJsonBase ++ List.replicate 7 32 ∧
      (28 + ft.length) % 8 = 0 ∧
      bt.length % 8 = 0 ∧
      toB3DMBuf glb =
        strBytes "b3dm" ++ putValU32 1 ++
        putValU32 (28 + ft.length + bt.length + glb.length) ++
        putValU32 ft.length ++ putValU32 0 ++
        putValU32 bt.length ++ putValU32 0 ++ ft ++ bt ++ glb := by
  refine ⟨padFeatureJson (strBytes featureJsonBase),
          padBatchJson (strBytes batchJsonBase), ?_, ?_, ?_, ?_, rfl⟩
  · rfl
  · rfl
  · rfl
  · rfl

/-! ## C3: `TriangulateQuadLike` (OSGB23dTiles.cpp:877-951) -/

/-- OpenGL primitive modes relevant to `TriangulateQuadLike`; any other mode
makes the function return `false` (modelled by `other`). -/
inductive GLMode where
  | quads
  | quadStrip
  | other
  deriving DecidableEq, Repr

/-- The `GL_QUADS` loop (OSGB23dTiles.cpp:893-904): each full 4-tuple
`(a,b,c,d)` emits `(a,b,c)` then `(a,c,d)`; indices past the last full quad
are discarded. -/
def triangulateQuads : List Nat → List Nat
  | a :: b :: c :: d :: rest => a :: b :: c :: a :: c :: d :: triangulateQuads rest
  | _ => []

/-- The `GL_QUAD_STRIP` loop (OSGB23dTiles.cpp:922-945): window `i` reads
`a,b,c,d` at positions `2i..2i+3` and emits `(a,b,c)` then `(b,d,c)`,
advancing by one pair. -/
def triangulateQuadStrip : List Nat → List Nat
  | a :: b :: c :: d :: rest =>
      a :: b :: c :: b :: d :: c :: triangulateQuadStrip (c :: d :: rest)
  | _ => []

/-- `TriangulateQuadLike` (OSGB23dTiles.cpp:877-951): returns the triangle
index list on success (`true` + filled `out`), `none` on the `return false`
paths (fewer than 4 indices, fewer than 2 pairs, empty output, or an
unsupported mode). -/
def triangulateQuadLike (indices : List Nat) (mode : GLMode) : Option (List Nat) :=
  match mode with
  | GLMode.quads =>
      if indices.length < 4 then none
      else
        let out := triangulateQuads indices
        if out = [] then none else some out
  | GLMode.quadStrip =>
      if indices.length < 4 then none
      else if indices.length / 2 < 2 then none
      else
        let out := triangulateQuadStrip indices
        if out = [] then none else some out
  | GLMode.other => none

theorem triangulateQuads_length : ∀ l : List Nat,
    (triangulateQuads l).length = 6 * (l.length / 4)
  | a :: b :: c :: d :: rest => by
      have ih := triangulateQuads_length rest
      simp only [triangulateQuads, List.length_cons, ih]
      omega
  | [] => by simp [triangulateQuads]
  | [a] => by simp [triangulateQuads]
  | [a, b] => by simp [triangulateQuads]
  | [a, b, c] => by simp [triangulateQuads]

theorem triangulateQuadStrip_length : ∀ l : List Nat,
    (triangulateQuadStrip l).length = 6 * ((l.length - 2) / 2)
  | a :: b :: c :: d :: rest => by
      have ih := triangulateQuadStrip_length (c :: d :: rest)
      simp only [triangulateQuadStrip, List.length_cons] at ih ⊢
      omega
  | [] => by simp [triangulateQuadStrip]
  | [a] => by simp [triangulateQuadStrip]
  | [a, b] => by simp [triangulateQuadStrip]
  | [a, b, c] => by simp [triangulateQuadStrip]

theorem getD_cons6 (x1 x2 x3 x4 x5 x6 : Nat) (tail : List Nat) (n : Nat) :
    (x1 :: x2 :: x3 :: x4 :: x5 :: x6 :: tail).getD (n + 6) 0 = tail.getD n 0 := by
  have h : n + 6 = n + 1 + 1 + 1 + 1 + 1 + 1 := by omega
  rw [h]
  simp [List.getD_cons_succ]

theorem getD_cons4 (x1 x2 x3 x4 : Nat) (tail : List Nat) (n : Nat) :
    (x1 :: x2 :: x3 :: x4 :: tail).getD (n + 4) 0 = tail.getD n 0 := by
  have h : n + 4 = n + 1 + 1 + 1 + 1 := by omega
  rw [h]
  simp [List.getD_cons_succ]

theorem getD_cons2 (x1 x2 : Nat) (tail : List Nat) (n : Nat) :
    (x1 :: x2 :: tail).getD (n + 2) 0 = tail.getD n 0 := by
  have h : n + 2 = n + 1 + 1 := by omega
  rw [h]
  simp [List.getD_cons_succ]

/-- Quad `q` of the `GL_QUADS` triangulation reads source indices
`4q..4q+3` and writes the six output indices `(a,b,c,a,c,d)`. -/
theorem triangulateQuads_window : ∀ (l : List Nat) (q : Nat), 4 * q + 3 < l.length →
    (triangulateQuads l).getD (6 * q) 0 = l.getD (4 * q) 0 ∧
    (triangulateQuads l).getD (6 * q + 1) 0 = l.getD (4 * q + 1) 0 ∧
    (triangulateQuads l).getD (6 * q + 2) 0 = l.getD (4 * q + 2) 0 ∧
    (triangulateQuads l).getD (6 * q + 3) 0 = l.getD (4 * q) 0 ∧
    (triangulateQuads l).getD (6 * q + 4) 0 = l.getD (4 * q + 2) 0 ∧
    (triangulateQuads l).getD (6 * q + 5) 0 = l.getD (4 * q + 3) 0
  | a :: b :: c :: d :: rest, 0, _ => by
      simp [triangulateQuads, List.getD_cons_succ, List.getD_cons_zero]
  | a :: b :: c :: d :: rest, q + 1, h => by
      have hrest : 4 * q + 3 < rest.length := by
        simp only [List.length_cons] at h; omega
      have ih := triangulateQuads_window rest q hrest
      refine ⟨?_, ?_, ?_, ?_, ?_, ?_⟩
      · simp only [triangulateQuads]
        rw [show 6 * (q + 1) = 6 * q + 6 by ring, getD_cons6,
            show 4 * (q + 1) = 4 * q + 4 by ring, getD_cons4]
        exact ih.1
      · simp only [triangulateQuads]
        rw [show 6 * (q + 1) + 1 = 6 * q + 1 + 6 by ring, getD_cons6,
            show 4 * (q + 1) + 1 = 4 * q + 1 + 4 by ring, getD_cons4]
        exact ih.2.1
      · simp only [triangulateQuads]
        rw [show 6 * (q + 1) + 2 = 6 * q + 2 + 6 by ring, getD_cons6,
            show 4 * (q + 1) + 2 = 4 * q + 2 + 4 by ring, getD_cons4]
        exact ih.2.2.1
      · simp only [triangulateQuads]
        rw [show 6 * (q + 1) + 3 = 6 * q + 3 + 6 by ring, getD_cons6,
            show 4 * (q + 1) = 4 * q + 4 by ring, getD_cons4]
        exact ih.2.2.2.1
      · simp only [triangulateQuads]
        rw [show 6 * (q + 1) + 4 = 6 * q + 4 + 6 by ring, getD_cons6,
            show 4 * (q + 1) + 2 = 4 * q + 2 + 4 by ring, getD_cons4]
        exact ih.2.2.2.2.1
      · simp only [triangulateQuads]
        rw [show 6 * (q + 1) + 5 = 6 * q + 5 + 6 by ring, getD_cons6,
            show 4 * (q + 1) + 3 = 4 * q + 3 + 4 by ring, getD_cons4]
        exact ih.2.2.2.2.2
  | [], q, h => by simp only [List.length_cons, List.length_nil] at h; omega
  | [a], q, h => by simp only [List.length_cons, List.length_nil] at h; omega
  | [a, b], q, h => by simp only [List.length_cons, List.length_nil] at h; omega
  | [a, b, c], q, h => by simp only [List.length_cons, List.length_nil] at h; omega

/-- Window `i` of the `GL_QUAD_STRIP` triangulation reads source indices
`2i..2i+3` as `(a,b,c,d)` and writes the six output indices `(a,b,c,b,d,c)`,
i.e. triangles `(v0,v1,v2)` and `(v1,v3,v2)`. -/
theorem triangulateQuadStrip_window : ∀ (l : List Nat) (i : Nat), 2 * i + 3 < l.length →
    (triangulateQuadStrip l).getD (6 * i) 0 = l.getD (2 * i) 0 ∧
    (triangulateQuadStrip l).getD (6 * i + 1) 0 = l.getD (2 * i + 1) 0 ∧
    (triangulateQuadStrip l).getD (6 * i + 2) 0 = l.getD (2 * i + 2) 0 ∧
    (triangulateQuadStrip l).getD (6 * i + 3) 0 = l.getD (2 * i + 1) 0 ∧
    (triangulateQuadStrip l).getD (6 * i + 4) 0 = l.getD (2 * i + 3) 0 ∧
    (triangulateQuadStrip l).getD (6 * i + 5) 0 = l.getD (2 * i + 2) 0
  | a :: b :: c :: d :: rest, 0, _ => by
      simp [triangulateQuadStrip, List.getD_cons_succ, List.getD_cons_zero]
  | a :: b :: c :: d :: rest, i + 1, h => by
      have hrest : 2 * i + 3 < (c :: d :: rest).length := by
        simp only [List.length_cons] at h ⊢; omega
      have ih := triangulateQuadStrip_window (c :: d :: rest) i hrest
      refine ⟨?_, ?_, ?_, ?_, ?_, ?_⟩
      · simp only [triangulateQuadStrip]
        rw [show 6 * (i + 1) = 6 * i + 6 by ring, getD_cons6,
            show 2 * (i + 1) = 2 * i + 2 by ring, getD_cons2]
        exact ih.1
      · simp only [triangulateQuadStrip]
        rw [show 6 * (i + 1) + 1 = 6 * i + 1 + 6 by ring, getD_cons6,
            show 2 * (i + 1) + 1 = 2 * i + 1 + 2 by ring, getD_cons2]
        exact ih.2.1
      · simp only [triangulateQuadStrip]
        rw [show 6 * (i + 1) + 2 = 6 * i + 2 + 6 by ring, getD_cons6,
            show 2 * (i + 1) + 2 = 2 * i + 2 + 2 by ring, getD_cons2]
        exact ih.2.2.1
      · simp only [triangulateQuadStrip]
        rw [show 6 * (i + 1) + 3 = 6 * i + 3 + 6 by ring, getD_cons6,
            show 2 * (i + 1) + 1 = 2 * i + 1 + 2 by ring, getD_cons2]
        exact ih.2.2.2.1
      · simp only [triangulateQuadStrip]
        rw [show 6 * (i + 1) + 4 = 6 * i + 4 + 6 by ring, getD_cons6,
            show 2 * (i + 1) + 3 = 2 * i + 3 + 2 by ring, getD_cons2]
        exact ih.2.2.2.2.1
      · simp only [triangulateQuadStrip]
        rw [show 6 * (i + 1) + 5 = 6 * i + 5 + 6 by ring, getD_cons6,
            show 2 * (i + 1) + 2 = 2 * i + 2 + 2 by ring, getD_cons2]
        exact ih.2.2.2.2.2
  | [], i, h => by simp only [List.length_cons, List.length_nil] at h; omega
  | [a], i, h => by simp only [List.length_cons, List.length_nil] at h; omega
  | [a, b], i, h => by simp only [List.length_cons, List.length_nil] at h; omega
  | [a, b, c], i, h => by simp only [List.length_cons, List.length_nil] at h; omega

theorem triangulateQuadLike_quads_eq (l : List Nat) (h : 3 < l.length) :
    triangulateQuadLike l GLMode.quads = some (triangulateQuads l) := by
  match l, h with
  | a :: b :: c :: d :: rest, _ =>
      simp [triangulateQuadLike, triangulateQuads]

theorem triangulateQuadLike_strip_eq (l : List Nat) (h : 3 < l.length) :
    triangulateQuadLike l GLMode.quadStrip = some (triangulateQuadStrip l) := by
  match l, h with
  | a :: b :: c :: d :: rest, _ =>
      simp only [triangulateQuadLike, List.length_cons]
      rw [if_neg (by omega), if_neg (by omega)]
      simp [triangulateQuadStrip]

/-- Claim C3: for `GL_QUADS`, each consecutive 4-tuple `(a,b,c,d)` yields the
six indices `(a,b,c)` then `(a,c,d)` with indices past the last full quad
discarded; for `GL_QUAD_STRIP`, positions `2i..2i+3` yield triangles
`(v0,v1,v2)` and `(v1,v3,v2)`; and fewer than 4 indices yield no output. -/
theorem triangulateQuadLike_spec (l : List Nat) :
    (l.length < 4 →
      triangulateQuadLike l GLMode.quads = none ∧
      triangulateQuadLike l GLMode.quadStrip = none) ∧
    (∀ q, 4 * q + 3 < l.length →
      triangulateQuadLike l GLMode.quads = some (triangulateQuads l) ∧
      (triangulateQuads l).length = 6 * (l.length / 4) ∧
      (triangulateQuads l).getD (6 * q) 0 = l.getD (4 * q) 0 ∧
      (triangulateQuads l).getD (6 * q + 1) 0 = l.getD (4 * q + 1) 0 ∧
      (triangulateQuads l).getD (6 * q + 2) 0 = l.getD (4 * q + 2) 0 ∧
      (triangulateQuads l).getD (6 * q + 3) 0 = l.getD (4 * q) 0 ∧
      (triangulateQuads l).getD (6 * q + 4) 0 = l.getD (4 * q + 2) 0 ∧
      (triangulateQuads l).getD (6 * q + 5) 0 = l.getD (4 * q + 3) 0) ∧
    (∀ i, 2 * i + 3 < l.length →
      triangulateQuadLike l GLMode.quadStrip = some (triangulateQuadStrip l) ∧
      (triangulateQuadStrip l).length = 6 * ((l.length - 2) / 2) ∧
      (triangulateQuadStrip l).getD (6 * i) 0 = l.getD (2 * i) 0 ∧
      (triangulateQuadStrip l).getD (6 * i + 1) 0 = l.getD (2 * i + 1) 0 ∧
      (triangulateQuadStrip l).getD (6 * i + 2) 0 = l.getD (2 * i + 2) 0 ∧
      (triangulateQuadStrip l).getD (6 * i + 3) 0 = l.getD (2 * i + 1) 0 ∧
      (triangulateQuadStrip l).getD (6 * i + 4) 0 = l.getD (2 * i + 3) 0 ∧
      (triangulateQuadStrip l).getD (6 * i + 5) 0 = l.getD (2 * i + 2) 0) := by
  refine ⟨?_, ?_, ?_⟩
  · intro h
    constructor
    · simp [triangulateQuadLike, if_pos h]
    · simp [triangulateQuadLike, if_pos h]
  · intro q hq
    have h4 : 3 < l.length := by omega
    obtain ⟨h1, h2, h3, h5, h6, h7⟩ := triangulateQuads_window l q hq
    exact ⟨triangulateQuadLike_quads_eq l h4, triangulateQuads_length l,
      h1, h2, h3, h5, h6, h7⟩
  · intro i hi
    have h4 : 3 < l.length := by omega
    obtain ⟨h1, h2, h3, h5, h6, h7⟩ := triangulateQuadStrip_window l i hi
    exact ⟨triangulateQuadLike_strip_eq l h4, triangulateQuadStrip_length l,
      h1, h2, h3, h5, h6, h7⟩

/-- Witness for C3 at concrete inputs: three indices give no output for both
quad modes; `[10,11,12,13,14,15,16,17]` as `GL_QUADS` yields two quads, the
second emitting `(14,15,16),(14,16,17)`; the same list as `GL_QUAD_STRIP` has
window 1 at positions `2..5`, emitting `(12,13,14),(13,15,14)`. -/
theorem triangulateQuadLike_spec_witness :
    (triangulateQuadLike [0, 1, 2] GLMode.quads = none ∧
     triangulateQuadLike [0, 1, 2] GLMode.quadStrip = none) ∧
    (triangulateQuads [10, 11, 12, 13, 14, 15, 16, 17]).getD 6 0 = 14 ∧
    (triangulateQuads [10, 11, 12, 13, 14, 15, 16, 17]).getD 11 0 = 17 ∧
    (triangulateQuadStrip [10, 11, 12, 13, 14, 15, 16, 17]).getD 6 0 = 12 ∧
    (triangulateQuadStrip [10, 11, 12, 13, 14, 15, 16, 17]).getD 10 0 = 15 := by
  have h0 := (triangulateQuadLike_spec [0, 1, 2]).1 (by decide)
  have hq := (triangulateQuadLike_spec [10, 11, 12, 13, 14, 15, 16, 17]).2.1 1 (by decide)
  have hs := (triangulateQuadLike_spec [10, 11, 12, 13, 14, 15, 16, 17]).2.2 1 (by decide)
  refine ⟨h0, ?_, ?_, ?_, ?_⟩
  · simpa using hq.2.2.1
  · simpa using hq.2.2.2.2.2.2.2
  · simpa using hs.2.2.1
  · simpa using hs.2.2.2.2.2.2.1

/-! ## C2 / C5: glTF buffer packing
(`AlignmentBuffer` OSGB23dTiles.cpp:239-246, `WriteVec3Array` 705-740,
`WriteVec2Array` 742-778, `WriteOsgIndecis` 671-703, `WriteIndexVector`
780-871, Draco blob in `WriteOsgGeometry` 1278-1307, image views in
`ToGLBBuf` 1424-1449).

Only the geometry of the single glTF buffer matters here (offsets and
lengths of the emitted buffer views), so the state tracks the buffer length
in bytes and the list of emitted views; each operation appends exactly the
number of bytes the C++ writes. -/

/-- A glTF buffer view as emitted by the writer (`buffer` is always 0). -/
structure BufferView where
  byteOffset : Nat
  byteLength : Nat
  deriving DecidableEq, Repr

/-- Buffer-building state: current byte length of the single glTF buffer and
the emitted buffer views, in emission order. -/
structure BuildState where
  bufLen : Nat
  views : List BufferView
  deriving DecidableEq, Repr

/-- `AlignmentBuffer` (OSGB23dTiles.cpp:239-246): pad with zero bytes until
the buffer size is a multiple of 4; written as the number of bytes the
`while` loop appends. -/
def alignmentBuffer (n : Nat) : Nat :=
  n + (4 - n % 4) % 4

/-- glTF accessor component types used by the index writers. -/
inductive ComponentType where
  | unsignedByte
  | unsignedShort
  | unsignedInt
  | float
  deriving DecidableEq, Repr

/-- Byte size of an index component type. -/
def componentByteSize : ComponentType → Nat
  | ComponentType.unsignedByte => 1
  | ComponentType.unsignedShort => 2
  | ComponentType.unsignedInt => 4
  | ComponentType.float => 4

/-- The lambda `PickIndexComponentType` in `WriteIndexVector`
(OSGB23dTiles.cpp:797-810): smallest type whose range holds `max_index`. -/
def pickIndexComponentType (maxIndex : Nat) : ComponentType :=
  if maxIndex ≤ 255 then ComponentType.unsignedByte
  else if maxIndex ≤ 65535 then ComponentType.unsignedShort
  else ComponentType.unsignedInt

/-- A glTF accessor as emitted by the index writers (`bufferView = -1` models
the omitted buffer view of the Draco variant). -/
structure Accessor where
  bufferView : Int
  componentType : ComponentType
  count : Nat
  maxValue : Nat
  minValue : Nat
  deriving DecidableEq, Repr

/-- `WriteVec3Array` (OSGB23dTiles.cpp:705-740): append `12 * count` bytes of
little-endian floats, pad to 4, and emit one view covering the appended
range (padding included). -/
def writeVec3Array (count : Nat) (st : BuildState) : BuildState :=
  let start := st.bufLen
  let newLen := alignmentBuffer (st.bufLen + 12 * count)
  { bufLen := newLen, views := st.views ++ [⟨start, newLen - start⟩] }

/-- `WriteVec2Array` (OSGB23dTiles.cpp:742-778): as `WriteVec3Array` with
`8 * count` bytes. -/
def writeVec2Array (count : Nat) (st : BuildState) : BuildState :=
  let start := st.bufLen
  let newLen := alignmentBuffer (st.bufLen + 8 * count)
  { bufLen := newLen, views := st.views ++ [⟨start, newLen - start⟩] }

/-- `WriteOsgIndecis` (OSGB23dTiles.cpp:671-703): append `count` indices of
the given component size, pad to 4, and emit one element-array view. -/
def writeOsgIndecis (count indexSize : Nat) (st : BuildState) : BuildState :=
  let start := st.bufLen
  let newLen := alignmentBuffer (st.bufLen + indexSize * count)
  { bufLen := newLen, views := st.views ++ [⟨start, newLen - start⟩] }

/-- `WriteIndexVector` (OSGB23dTiles.cpp:780-871).  Empty input returns -1
(modelled `none`).  The accessor's component type is picked from the maximum
index; with Draco compressed no bytes are appended and no view is emitted
(`acc.bufferView = -1`); otherwise the chosen-width index bytes are appended,
padded to 4, and an element-array view is emitted. -/
def writeIndexVector (indices : List Nat) (dracoCompressed : Bool)
    (st : BuildState) : Option (Accessor × BuildState) :=
  if indices = [] then none
  else
    let maxIndex := indices.foldl max 0
    let minIndex := indices.foldl min 4294967295
    let ct := pickIndexComponentType maxIndex
    if dracoCompressed then
      some (⟨-1, ct, indices.length, maxIndex, minIndex⟩, st)
    else
      let start := st.bufLen
      let newLen := alignmentBuffer (st.bufLen + componentByteSize ct * indices.length)
      some (⟨Int.ofNat st.views.length, ct, indices.length, maxIndex, minIndex⟩,
        { bufLen := newLen, views := st.views ++ [⟨start, newLen - start⟩] })

/-- The Draco blob write in `WriteOsgGeometry` (OSGB23dTiles.cpp:1287-1299):
the buffer is padded to 4 first, the offset taken, then the compressed bytes
are appended with NO padding after, and a view covering exactly the blob is
emitted. -/
def writeDracoBlob (size : Nat) (st : BuildState) : BuildState :=
  let start := alignmentBuffer st.bufLen
  { bufLen := start + size, views := st.views ++ [⟨start, size⟩] }

/-- The image write in `ToGLBBuf` (OSGB23dTiles.cpp:1424-1449): the offset is
taken before the image bytes are inserted, the buffer is padded to 4
afterwards, and the view length includes the padding. -/
def writeImageView (size : Nat) (st : BuildState) : BuildState :=
  let start := st.bufLen
  let newLen := alignmentBuffer (st.bufLen + size)
  { bufLen := newLen, views := st.views ++ [⟨start, newLen - start⟩] }

/-- One buffer-touching emission of the GLB writer, in the order the source
performs them: attribute arrays, element indices, triangulated index
vectors, Draco blobs, image blobs. -/
inductive EmitStep where
  | vec3 (count : Nat)
  | vec2 (count : Nat)
  | elems (count indexSize : Nat)
  | indexVec (indices : List Nat)
  | draco (size : Nat)
  | image (size : Nat)
  deriving DecidableEq, Repr

/-- Apply one emission to the state (an `indexVec` whose writer returns -1
leaves the state unchanged, as in the source). -/
def emitStep (st : BuildState) : EmitStep → BuildState
  | EmitStep.vec3 count => writeVec3Array count st
  | EmitStep.vec2 count => writeVec2Array count st
  | EmitStep.elems count indexSize => writeOsgIndecis count indexSize st
  | EmitStep.indexVec indices =>
      match writeIndexVector indices false st with
      | some (_, st2) => st2
      | none => st
  | EmitStep.draco size => writeDracoBlob size st
  | EmitStep.image size => writeImageView size st

/-- A whole GLB build is a sequence of emissions starting from the empty
buffer (`tinygltf::Buffer` starts empty, `model.bufferViews` empty). -/
def runEmit (steps : List EmitStep) : BuildState :=
  steps.foldl emitStep ⟨0, []⟩

/-- All emitted views lie inside the buffer. -/
def viewsWithinBuffer (st : BuildState) : Prop :=
  ∀ v ∈ st.views, v.byteOffset + v.byteLength ≤ st.bufLen

/-- The buffer length is 4-aligned and every view offset is 4-aligned. -/
def viewsAligned (st : BuildState) : Prop :=
  st.bufLen % 4 = 0 ∧ ∀ v ∈ st.views, v.byteOffset % 4 = 0

theorem alignmentBuffer_ge (n : Nat) : n ≤ alignmentBuffer n := by
  simp [alignmentBuffer]

theorem alignmentBuffer_mod (n : Nat) : alignmentBuffer n % 4 = 0 := by
  simp only [alignmentBuffer]
  omega

theorem emitStep_bufLen_mono (st : BuildState) (s : EmitStep) :
    st.bufLen ≤ (emitStep st s).bufLen := by
  cases s with
  | vec3 n =>
      simpa [emitStep, writeVec3Array] using
        le_trans (Nat.le_add_right _ _) (alignmentBuffer_ge (st.bufLen + 12 * n))
  | vec2 n =>
      simpa [emitStep, writeVec2Array] using
        le_trans (Nat.le_add_right _ _) (alignmentBuffer_ge (st.bufLen + 8 * n))
  | elems n k =>
      simpa [emitStep, writeOsgIndecis] using
        le_trans (Nat.le_add_right _ _) (alignmentBuffer_ge (st.bufLen + k * n))
  | indexVec inds =>
      by_cases h : inds = []
      · simp [emitStep, writeIndexVector, h]
      · simpa [emitStep, writeIndexVector, h] using
          le_trans (Nat.le_add_right _ _) (alignmentBuffer_ge _)
  | draco size =>
      simpa [emitStep, writeDracoBlob] using
        le_trans (alignmentBuffer_ge st.bufLen) (Nat.le_add_right _ _)
  | image size =>
      simpa [emitStep, writeImageView] using
        le_trans (Nat.le_add_right _ _) (alignmentBuffer_ge (st.bufLen + size))

/-- Every emission either leaves the state unchanged or appends exactly one
view at the end of the buffer; the new view lies within the new buffer, the
new offset is the (possibly pre-aligned) old buffer end, and the new buffer
end is 4-aligned except after a Draco blob, where it is the aligned old end
plus the blob size. -/
theorem emitStep_shape (st : BuildState) (s : EmitStep) :
    emitStep st s = st ∨
    ∃ w L, emitStep st s = ⟨L, st.views ++ [w]⟩ ∧
      w.byteOffset + w.byteLength ≤ L ∧
      st.bufLen ≤ L ∧
      (w.byteOffset = st.bufLen ∨ w.byteOffset = alignmentBuffer st.bufLen) ∧
      (L % 4 = 0 ∨ ∃ n, s = EmitStep.draco n ∧ L = alignmentBuffer st.bufLen + n) := by
  cases s with
  | vec3 n =>
      refine Or.inr ⟨_, _, rfl, ?_, ?_, Or.inl rfl, Or.inl (alignmentBuffer_mod _)⟩
      · have := alignmentBuffer_ge (st.bufLen + 12 * n)
        simp only []
        omega
      · have := alignmentBuffer_ge (st.bufLen + 12 * n)
        omega
  | vec2 n =>
      refine Or.inr ⟨_, _, rfl, ?_, ?_, Or.inl rfl, Or.inl (alignmentBuffer_mod _)⟩
      · have := alignmentBuffer_ge (st.bufLen + 8 * n)
        simp only []
        omega
      · have := alignmentBuffer_ge (st.bufLen + 8 * n)
        omega
  | elems n k =>
      refine Or.inr ⟨_, _, rfl, ?_, ?_, Or.inl rfl, Or.inl (alignmentBuffer_mod _)⟩
      · have := alignmentBuffer_ge (st.bufLen + k * n)
        simp only []
        omega
      · have := alignmentBuffer_ge (st.bufLen + k * n)
        omega
  | indexVec inds =>
      by_cases hne : inds = []
      · exact Or.inl (by simp [emitStep, writeIndexVector, hne])
      · refine Or.inr ⟨⟨st.bufLen,
          alignmentBuffer (st.bufLen + componentByteSize
            (pickIndexComponentType (inds.foldl max 0)) * inds.length) - st.bufLen⟩,
          alignmentBuffer (st.bufLen + componentByteSize
            (pickIndexComponentType (inds.foldl max 0)) * inds.length),
          ?_, ?_, ?_, Or.inl rfl, Or.inl (alignmentBuffer_mod _)⟩
        · simp [emitStep, writeIndexVector, hne]
        · have := alignmentBuffer_ge
            (st.bufLen + componentByteSize
              (pickIndexComponentType (inds.foldl max 0)) * inds.length)
          simp only []
          omega
        · have := alignmentBuffer_ge
            (st.bufLen + componentByteSize
              (pickIndexComponentType (inds.foldl max 0)) * inds.length)
          omega
  | draco size =>
      refine Or.inr ⟨_, _, rfl, ?_, ?_, Or.inr rfl, Or.inr ⟨size, rfl, rfl⟩⟩
      · simp only []
        omega
      · have := alignmentBuffer_ge st.bufLen
        omega
  | image size =>
      refine Or.inr ⟨_, _, rfl, ?_, ?_, Or.inl rfl, Or.inl (alignmentBuffer_mod _)⟩
      · have := alignmentBuffer_ge (st.bufLen + size)
        simp only []
        omega
      · have := alignmentBuffer_ge (st.bufLen + size)
        omega

theorem emitStep_within (st : BuildState) (s : EmitStep)
    (h : viewsWithinBuffer st) : viewsWithinBuffer (emitStep st s) := by
  have hmono := emitStep_bufLen_mono st s
  rcases emitStep_shape st s with heq | ⟨w, L, heq, hwL, hstL, _, _⟩
  · rw [heq]; exact h
  · rw [heq] at hmono ⊢
    intro v hv
    simp only [List.mem_append, List.mem_singleton] at hv
    rcases hv with hv | rfl
    · exact le_trans (h v hv) hmono
    · exact hwL

theorem emitStep_aligned (st : BuildState) (s : EmitStep)
    (hs : ∀ n, s = EmitStep.draco n → n % 4 = 0)
    (h : viewsAligned st) : viewsAligned (emitStep st s) := by
  obtain ⟨hlen, hviews⟩ := h
  rcases emitStep_shape st s with heq | ⟨w, L, heq, _, _, hoff, hL⟩
  · rw [heq]; exact ⟨hlen, hviews⟩
  · have hoff4 : w.byteOffset % 4 = 0 := by
      rcases hoff with ho | ho
      · rw [ho]; exact hlen
      · rw [ho]; exact alignmentBuffer_mod _
    have hL4 : L % 4 = 0 := by
      rcases hL with h4 | ⟨n, hsn, hLn⟩
      · exact h4
      · have hn := hs n hsn
        have := alignmentBuffer_mod st.bufLen
        omega
    rw [heq]
    refine ⟨hL4, ?_⟩
    intro v hv
    simp only [List.mem_append, List.mem_singleton] at hv
    rcases hv with hv | rfl
    · exact hviews v hv
    · exact hoff4

theorem runEmit_aux_within : ∀ (steps : List EmitStep) (st : BuildState),
    viewsWithinBuffer st → viewsWithinBuffer (steps.foldl emitStep st)
  | [], _, h => h
  | s :: rest, st, h =>
      runEmit_aux_within rest (emitStep st s) (emitStep_within st s h)

theorem runEmit_aux_aligned : ∀ (steps : List EmitStep) (st : BuildState),
    (∀ s ∈ steps, ∀ n, s = EmitStep.draco n → n % 4 = 0) →
    viewsAligned st → viewsAligned (steps.foldl emitStep st)
  | [], _, _, h => h
  | s :: rest, st, hd, h =>
      runEmit_aux_aligned rest (emitStep st s)
        (fun x hx => hd x (List.mem_cons_of_mem s hx))
        (emitStep_aligned st s (hd s (List.mem_cons_self s rest)) h)

/-- Counterexample to claim C2 as stated: one Draco-compressed geometry whose
blob is 5 bytes long followed by one 4-byte image is a real emission sequence
of `ToGLBBuf`, and the image's buffer view then starts at offset 5, which is
not a multiple of 4 (the Draco blob write does not pad the buffer after the
blob: OSGB23dTiles.cpp:1292, and the image view takes its offset before any
padding: OSGB23dTiles.cpp:1428,1443). -/
theorem runEmit_image_view_misaligned :
    ¬ (∀ v ∈ (runEmit [EmitStep.draco 5, EmitStep.image 4]).views,
        v.byteOffset % 4 = 0) := by
  decide

/-- Decidable check that an emission is not a Draco blob of unaligned size. -/
def dracoAligned : EmitStep → Bool
  | EmitStep.draco n => n % 4 == 0
  | _ => true

theorem dracoAligned_spec (s : EmitStep) (h : dracoAligned s = true) :
    ∀ n, s = EmitStep.draco n → n % 4 = 0 := by
  intro n hn
  subst hn
  simpa [dracoAligned] using h

/-- Claim C2 (amended): every emitted glTF buffer view satisfies
`byteOffset + byteLength ≤ len(buffer)`; and whenever every Draco blob
length in the run is a multiple of 4 (in particular in every run with no
Draco blob), every view's `byteOffset` is a multiple of 4.  (Offsets are
`Nat`, so `0 ≤ byteOffset` holds by construction.) -/
theorem runEmit_views_spec (steps : List EmitStep) :
    (∀ v ∈ (runEmit steps).views,
        v.byteOffset + v.byteLength ≤ (runEmit steps).bufLen) ∧
    ((∀ s ∈ steps, dracoAligned s = true) →
      ∀ v ∈ (runEmit steps).views, v.byteOffset % 4 = 0) := by
  constructor
  · exact runEmit_aux_within steps ⟨0, []⟩ (by intro v hv; simp at hv)
  · intro hd
    exact (runEmit_aux_aligned steps ⟨0, []⟩
      (fun s hs => dracoAligned_spec s (hd s hs))
      ⟨by simp, by intro v hv; simp at hv⟩).2

/-- Witness for C2 (amended) on a concrete run with a vec3 attribute, an
aligned Draco blob, an index vector and an image. -/
theorem runEmit_views_spec_witness :
    ∀ v ∈ (runEmit [EmitStep.vec3 1, EmitStep.draco 8,
        EmitStep.indexVec [0, 1, 2], EmitStep.image 3]).views,
      v.byteOffset % 4 = 0 ∧
      v.byteOffset + v.byteLength ≤
        (runEmit [EmitStep.vec3 1, EmitStep.draco 8,
          EmitStep.indexVec [0, 1, 2], EmitStep.image 3]).bufLen := by
  have h := runEmit_views_spec [EmitStep.vec3 1, EmitStep.draco 8,
    EmitStep.indexVec [0, 1, 2], EmitStep.image 3]
  intro v hv
  exact ⟨h.2 (by decide) v hv, h.1 v hv⟩

/-- Counterexample to claim C5 as stated: an index buffer whose maximum is
exactly 65535 is stored as UNSIGNED_SHORT, not UNSIGNED_INT
(`PickIndexComponentType`, OSGB23dTiles.cpp:797-810: the USHORT branch is
taken for `max_index <= 65535` inclusively). -/
theorem writeIndexVector_65535_is_ushort :
    ∃ acc st2, writeIndexVector [65535] false ⟨0, []⟩ = some (acc, st2) ∧
      acc.componentType = ComponentType.unsignedShort ∧
      acc.componentType ≠ ComponentType.unsignedInt := by
  refine ⟨⟨Int.ofNat 0, ComponentType.unsignedShort, 1, 65535, 65535⟩,
    ⟨4, [⟨0, 4⟩]⟩, ?_, rfl, by decide⟩
  decide

/-- Claim C5 (amended): `WriteIndexVector` picks the accessor component type
from the maximum index value: `<= 255` gives UNSIGNED_BYTE, `<= 65535` gives
UNSIGNED_SHORT, and larger values give UNSIGNED_INT; in particular a maximum
of exactly 65535 is stored as UNSIGNED_SHORT (it is NOT bumped to
UNSIGNED_INT). -/
theorem writeIndexVector_componentType (indices : List Nat) (st : BuildState)
    (dracoCompressed : Bool) (h : indices ≠ []) :
    ∃ acc st2, writeIndexVector indices dracoCompressed st = some (acc, st2) ∧
      acc.componentType = pickIndexComponentType (indices.foldl max 0) ∧
      (indices.foldl max 0 ≤ 255 →
        acc.componentType = ComponentType.unsignedByte) ∧
      (255 < indices.foldl max 0 → indices.foldl max 0 ≤ 65535 →
        acc.componentType = ComponentType.unsignedShort) ∧
      (65535 < indices.foldl max 0 →
        acc.componentType = ComponentType.unsignedInt) ∧
      pickIndexComponentType 65535 = ComponentType.unsignedShort := by
  have hpick : ∀ m : Nat,
      (m ≤ 255 → pickIndexComponentType m = ComponentType.unsignedByte) ∧
      (255 < m → m ≤ 65535 → pickIndexComponentType m = ComponentType.unsignedShort) ∧
      (65535 < m → pickIndexComponentType m = ComponentType.unsignedInt) := by
    intro m
    refine ⟨fun h1 => ?_, fun h1 h2 => ?_, fun h1 => ?_⟩
    · simp [pickIndexComponentType, if_pos h1]
    · simp only [pickIndexComponentType]
      rw [if_neg (by omega), if_pos h2]
    · simp only [pickIndexComponentType]
      rw [if_neg (by omega), if_neg (by omega)]
  cases dracoCompressed with
  | false =>
      refine ⟨⟨Int.ofNat st.views.length,
        pickIndexComponentType (indices.foldl max 0), indices.length,
        indices.foldl max 0, indices.foldl min 4294967295⟩,
        ⟨alignmentBuffer (st.bufLen +
            componentByteSize (pickIndexComponentType (indices.foldl max 0)) *
              indices.length),
          st.views ++ [⟨st.bufLen,
            alignmentBuffer (st.bufLen +
              componentByteSize (pickIndexComponentType (indices.foldl max 0)) *
                indices.length) - st.bufLen⟩]⟩,
        ?_, rfl, (hpick _).1, (hpick _).2.1, (hpick _).2.2, by decide⟩
      simp [writeIndexVector, h]
  | true =>
      refine ⟨⟨-1, pickIndexComponentType (indices.foldl max 0), indices.length,
        indices.foldl max 0, indices.foldl min 4294967295⟩, st,
        ?_, rfl, (hpick _).1, (hpick _).2.1, (hpick _).2.2, by decide⟩
      simp [writeIndexVector, h]

/-- Witness for C5 (amended) on the concrete index list `[300]`. -/
theorem writeIndexVector_componentType_witness :
    ∃ acc st2, writeIndexVector [300] false ⟨0, []⟩ = some (acc, st2) ∧
      acc.componentType = pickIndexComponentType ([300].foldl max 0) ∧
      acc.componentType = ComponentType.unsignedShort := by
  obtain ⟨acc, st2, he, hct, _, hus, _, _⟩ :=
    writeIndexVector_componentType [300] ⟨0, []⟩ false (by decide)
  exact ⟨acc, st2, he, hct, hus (by decide) (by decide)⟩

/-! ## C10: `InfoVisitor::apply(osg::PagedLOD&)` (OSGB23dTiles.cpp:195-216) -/

/-- The child-reference collection of `InfoVisitor::apply(osg::PagedLOD&)`
(OSGB23dTiles.cpp:197-203): for `i` from 1 to `getNumFileNames() - 1`, append
`getDatabasePath() + "/" + getFileName(i)` to the accumulated
`sub_node_names` (the visitor accumulates across nodes, hence the `acc`
parameter). -/
def applyPagedLOD (databasePath : String) (fileNames : List String)
    (acc : List String) : List String :=
  acc ++ (fileNames.drop 1).map (fun f => databasePath ++ "/" ++ f)

/-- Claim C10: a paged-LOD node with `n` child file names records exactly the
file names at positions 1 through `n-1`, each prefixed with the node's
database path and a '/'; the file name at position 0 is never recorded, and
a single-file-name node contributes nothing. -/
theorem applyPagedLOD_spec (databasePath : String) (fileNames : List String)
    (acc : List String) :
    (applyPagedLOD databasePath fileNames acc).length =
      acc.length + (fileNames.length - 1) ∧
    (∀ k, k + 1 < fileNames.length →
      (applyPagedLOD databasePath fileNames acc).getD (acc.length + k) "" =
        databasePath ++ "/" ++ fileNames.getD (k + 1) "") ∧
    (∀ f0, fileNames = [f0] → applyPagedLOD databasePath fileNames acc = acc) ∧
    (∀ g ∈ applyPagedLOD databasePath fileNames acc,
      g ∈ acc ∨ ∃ k, k + 1 < fileNames.length ∧
        g = databasePath ++ "/" ++ fileNames.getD (k + 1) "") := by
  have hlenm : ((fileNames.drop 1).map
      (fun f => databasePath ++ "/" ++ f)).length = fileNames.length - 1 := by
    simp
  refine ⟨?_, ?_, ?_, ?_⟩
  · simp [applyPagedLOD]
  · intro k hk
    have hklt : k < ((fileNames.drop 1).map
        (fun f => databasePath ++ "/" ++ f)).length := by omega
    have hkd : k < (fileNames.drop 1).length := by
      simpa using hklt
    rw [applyPagedLOD, List.getD_eq_getElem?_getD,
      List.getElem?_append_right (by omega)]
    rw [show acc.length + k - acc.length = k by omega,
      List.getElem?_eq_getElem hklt, Option.getD_some,
      List.getElem_map, List.getElem_drop]
    rw [List.getD_eq_getElem?_getD,
      List.getElem?_eq_getElem (by omega), Option.getD_some]
    congr 2
    omega
  · intro f0 hf
    subst hf
    simp [applyPagedLOD]
  · intro g hg
    simp only [applyPagedLOD, List.mem_append, List.mem_map] at hg
    rcases hg with hg | ⟨f, hf, rfl⟩
    · exact Or.inl hg
    · obtain ⟨k, hk, hfk⟩ := List.mem_iff_getElem.mp hf
      have hkl : k < fileNames.length - 1 := by
        simpa using hk
      refine Or.inr ⟨k, by omega, ?_⟩
      rw [List.getD_eq_getElem?_getD,
        List.getElem?_eq_getElem (by omega), Option.getD_some]
      rw [← hfk, List.getElem_drop]
      congr 2
      omega

/-- Witness for C10 at a concrete paged node with three file names. -/
theorem applyPagedLOD_spec_witness :
    (applyPagedLOD "Tile" ["a.osgb", "b.osgb", "c.osgb"] []).getD 1 "" =
      "Tile" ++ "/" ++ "c.osgb" ∧
    applyPagedLOD "Tile" ["solo.osgb"] ["prev"] = ["prev"] := by
  have h := applyPagedLOD_spec "Tile" ["a.osgb", "b.osgb", "c.osgb"] []
  have h2 := applyPagedLOD_spec "Tile" ["solo.osgb"] ["prev"]
  exact ⟨by simpa using h.2.1 1 (by decide), h2.2.2.1 "solo.osgb" rfl⟩

/-! ## C7: ENU-offset root transform
(`GeoTransform::CalcEnuToEcefMatrix` GeoTransform.cpp:91-127,
`OSGBTools::TransformC` / `TransformCWithEnuOffset` OSGBTools.cpp:436-473,
step 6 of `OSGB23dTiles::ToB3DMBatch` OSGB23dTiles.cpp:2183-2203).

The C++ computes with `double` and calls `std::sin`, `std::cos`,
`std::sqrt` and `std::acos(-1)`; the model is parametric in those functions
(`sinF`, `cosF`, `sqrtF`, `piQ`) over `ℚ`, which is faithful because both
`TransformCWithEnuOffset` and `CalcEnuToEcefMatrix` call the same library
functions at the same arguments (`dPI` at OSGBTools.cpp:19 and `pi` at
GeoTransform.cpp:94 are both `std::acos(-1)`). -/

/-- `GeoTransform::CalcEnuToEcefMatrix` (GeoTransform.cpp:91-127), flattened
column-major into 16 doubles exactly as `transfrom_xyz` does
(OSGBTools.cpp:418-434): columns are east, north, up, then the origin ECEF. -/
def calcEnuToEcefMatrix (sinF cosF sqrtF : ℚ → ℚ) (piQ lnt lat heightMin : ℚ) :
    List ℚ :=
  let a : ℚ := 6378137
  let f : ℚ := 1 / (298257223563 / 1000000000)
  let e2 := f * (2 - f)
  let lon := lnt * piQ / 180
  let phi := lat * piQ / 180
  let sinPhi := sinF phi
  let cosPhi := cosF phi
  let sinLon := sinF lon
  let cosLon := cosF lon
  let nRad := a / sqrtF (1 - e2 * sinPhi * sinPhi)
  let x0 := (nRad + heightMin) * cosPhi * cosLon
  let y0 := (nRad + heightMin) * cosPhi * sinLon
  let z0 := (nRad * (1 - e2) + heightMin) * sinPhi
  [-sinLon, cosLon, 0, 0,
   -sinPhi * cosLon, -sinPhi * sinLon, cosPhi, 0,
   cosPhi * cosLon, cosPhi * sinLon, sinPhi, 0,
   x0, y0, z0, 1]

/-- `OSGBTools::TransformC` (OSGBTools.cpp:436-443): the 16-double
column-major ENU→ECEF matrix with no offset applied. -/
def transformC (sinF cosF sqrtF : ℚ → ℚ) (piQ cx cy heightMin : ℚ) : List ℚ :=
  calcEnuToEcefMatrix sinF cosF sqrtF piQ cx cy heightMin

/-- `OSGBTools::TransformCWithEnuOffset` (OSGBTools.cpp:445-473): the base
matrix, then the ENU offset rotated through the east/north/up basis at the
same (lat, lon) is added to the translation entries 12, 13, 14. -/
def transformCWithEnuOffset (sinF cosF sqrtF : ℚ → ℚ)
    (piQ cx cy heightMin ox oy oz : ℚ) : List ℚ :=
  let v := calcEnuToEcefMatrix sinF cosF sqrtF piQ cx cy heightMin
  let latRad := cy * piQ / 180
  let lonRad := cx * piQ / 180
  let sinLat := sinF latRad
  let cosLat := cosF latRad
  let sinLon := sinF lonRad
  let cosLon := cosF lonRad
  let ecefOffsetX := -sinLon * ox - sinLat * cosLon * oy + cosLat * cosLon * oz
  let ecefOffsetY := cosLon * ox - sinLat * sinLon * oy + cosLat * sinLon * oz
  let ecefOffsetZ := cosLat * oy + sinLat * oz
  let v1 := v.set 12 (v.getD 12 0 + ecefOffsetX)
  let v2 := v1.set 13 (v1.getD 13 0 + ecefOffsetY)
  v2.set 14 (v2.getD 14 0 + ecefOffsetZ)

/-- Step 6 of `OSGB23dTiles::ToB3DMBatch` (OSGB23dTiles.cpp:2183-2203): the
dataset-root transform uses `TransformCWithEnuOffset` exactly when the
metadata declares an ENU SRS, and `TransformC` otherwise. -/
def batchRootTransform (sinF cosF sqrtF : ℚ → ℚ)
    (hasMetadata isENU : Bool) (piQ cx cy heightMin ox oy oz : ℚ) : List ℚ :=
  if hasMetadata ∧ isENU then
    transformCWithEnuOffset sinF cosF sqrtF piQ cx cy heightMin ox oy oz
  else
    transformC sinF cosF sqrtF piQ cx cy heightMin

/-- The rotation part (columns 0, 1, 2) of a column-major 4x4 matrix applied
to a vector: this is the claim's `R_enu_to_ecef · offset`. -/
def rotationApply (m : List ℚ) (ox oy oz : ℚ) : ℚ × ℚ × ℚ :=
  (m.getD 0 0 * ox + m.getD 4 0 * oy + m.getD 8 0 * oz,
   m.getD 1 0 * ox + m.getD 5 0 * oy + m.getD 9 0 * oz,
   m.getD 2 0 * ox + m.getD 6 0 * oy + m.getD 10 0 * oz)

/-- Add a vector to the translation column (entries 12, 13, 14) of a
column-major 4x4 matrix, leaving every other entry unchanged. -/
def shiftTranslation (m : List ℚ) (d : ℚ × ℚ × ℚ) : List ℚ :=
  let v1 := m.set 12 (m.getD 12 0 + d.1)
  let v2 := v1.set 13 (v1.getD 13 0 + d.2.1)
  v2.set 14 (v2.getD 14 0 + d.2.2)

theorem calcEnu_getD0 (sinF cosF sqrtF : ℚ → ℚ) (piQ lnt lat h : ℚ) :
    (calcEnuToEcefMatrix sinF cosF sqrtF piQ lnt lat h).getD 0 0 =
      -sinF (lnt * piQ / 180) := rfl

theorem calcEnu_getD1 (sinF cosF sqrtF : ℚ → ℚ) (piQ lnt lat h : ℚ) :
    (calcEnuToEcefMatrix sinF cosF sqrtF piQ lnt lat h).getD 1 0 =
      cosF (lnt * piQ / 180) := rfl

theorem calcEnu_getD2 (sinF cosF sqrtF : ℚ → ℚ) (piQ lnt lat h : ℚ) :
    (calcEnuToEcefMatrix sinF cosF sqrtF piQ lnt lat h).getD 2 0 = 0 := rfl

theorem calcEnu_getD4 (sinF cosF sqrtF : ℚ → ℚ) (piQ lnt lat h : ℚ) :
    (calcEnuToEcefMatrix sinF cosF sqrtF piQ lnt lat h).getD 4 0 =
      -sinF (lat * piQ / 180) * cosF (lnt * piQ / 180) := rfl

theorem calcEnu_getD5 (sinF cosF sqrtF : ℚ → ℚ) (piQ lnt lat h : ℚ) :
    (calcEnuToEcefMatrix sinF cosF sqrtF piQ lnt lat h).getD 5 0 =
      -sinF (lat * piQ / 180) * sinF (lnt * piQ / 180) := rfl

theorem calcEnu_getD6 (sinF cosF sqrtF : ℚ → ℚ) (piQ lnt lat h : ℚ) :
    (calcEnuToEcefMatrix sinF cosF sqrtF piQ lnt lat h).getD 6 0 =
      cosF (lat * piQ / 180) := rfl

theorem calcEnu_getD8 (sinF cosF sqrtF : ℚ → ℚ) (piQ lnt lat h : ℚ) :
    (calcEnuToEcefMatrix sinF cosF sqrtF piQ lnt lat h).getD 8 0 =
      cosF (lat * piQ / 180) * cosF (lnt * piQ / 180) := rfl

theorem calcEnu_getD9 (sinF cosF sqrtF : ℚ → ℚ) (piQ lnt lat h : ℚ) :
    (calcEnuToEcefMatrix sinF cosF sqrtF piQ lnt lat h).getD 9 0 =
      cosF (lat * piQ / 180) * sinF (lnt * piQ / 180) := rfl

theorem calcEnu_getD10 (sinF cosF sqrtF : ℚ → ℚ) (piQ lnt lat h : ℚ) :
    (calcEnuToEcefMatrix sinF cosF sqrtF piQ lnt lat h).getD 10 0 =
      sinF (lat * piQ / 180) := rfl

/-- Claim C7: for an ENU dataset with origin offset `(ox,oy,oz)`, the
dataset-root transform equals the ENU-to-ECEF matrix at the dataset center
and minimum height with its translation column shifted by
`R_enu_to_ecef · offset` (the rotation columns of that same matrix applied to
the offset), every non-translation entry unchanged; for non-ENU datasets no
shift is applied. -/
theorem batchRootTransform_spec (sinF cosF sqrtF : ℚ → ℚ)
    (piQ cx cy heightMin ox oy oz : ℚ) :
    (∀ hasMetadata isENU : Bool, ¬(hasMetadata ∧ isENU) →
      batchRootTransform sinF cosF sqrtF hasMetadata isENU
          piQ cx cy heightMin ox oy oz =
        calcEnuToEcefMatrix sinF cosF sqrtF piQ cx cy heightMin) ∧
    batchRootTransform sinF cosF sqrtF true true piQ cx cy heightMin ox oy oz =
      shiftTranslation (calcEnuToEcefMatrix sinF cosF sqrtF piQ cx cy heightMin)
        (rotationApply (calcEnuToEcefMatrix sinF cosF sqrtF piQ cx cy heightMin)
          ox oy oz) ∧
    (∀ (m : List ℚ) (d : ℚ × ℚ × ℚ) (k : Nat), k < 12 →
      (shiftTranslation m d).getD k 0 = m.getD k 0) := by
  refine ⟨?_, ?_, ?_⟩
  · intro hasMetadata isENU hne
    rw [batchRootTransform, if_neg hne]
    rfl
  · show transformCWithEnuOffset sinF cosF sqrtF piQ cx cy heightMin ox oy oz = _
    simp only [transformCWithEnuOffset]
    rw [show -sinF (cx * piQ / 180) * ox -
          sinF (cy * piQ / 180) * cosF (cx * piQ / 180) * oy +
          cosF (cy * piQ / 180) * cosF (cx * piQ / 180) * oz =
        (calcEnuToEcefMatrix sinF cosF sqrtF piQ cx cy heightMin).getD 0 0 * ox +
        (calcEnuToEcefMatrix sinF cosF sqrtF piQ cx cy heightMin).getD 4 0 * oy +
        (calcEnuToEcefMatrix sinF cosF sqrtF piQ cx cy heightMin).getD 8 0 * oz from by
      rw [calcEnu_getD0, calcEnu_getD4, calcEnu_getD8]; ring]
    rw [show cosF (cx * piQ / 180) * ox -
          sinF (cy * piQ / 180) * sinF (cx * piQ / 180) * oy +
          cosF (cy * piQ / 180) * sinF (cx * piQ / 180) * oz =
        (calcEnuToEcefMatrix sinF cosF sqrtF piQ cx cy heightMin).getD 1 0 * ox +
        (calcEnuToEcefMatrix sinF cosF sqrtF piQ cx cy heightMin).getD 5 0 * oy +
        (calcEnuToEcefMatrix sinF cosF sqrtF piQ cx cy heightMin).getD 9 0 * oz from by
      rw [calcEnu_getD1, calcEnu_getD5, calcEnu_getD9]; ring]
    rw [show cosF (cy * piQ / 180) * oy + sinF (cy * piQ / 180) * oz =
        (calcEnuToEcefMatrix sinF cosF sqrtF piQ cx cy heightMin).getD 2 0 * ox +
        (calcEnuToEcefMatrix sinF cosF sqrtF piQ cx cy heightMin).getD 6 0 * oy +
        (calcEnuToEcefMatrix sinF cosF sqrtF piQ cx cy heightMin).getD 10 0 * oz from by
      rw [calcEnu_getD2, calcEnu_getD6, calcEnu_getD10]; ring]
    rfl
  · intro m d k hk
    simp only [shiftTranslation]
    rw [List.getD_eq_getElem?_getD, List.getD_eq_getElem?_getD,
      List.getElem?_set_ne (by omega), List.getElem?_set_ne (by omega),
      List.getElem?_set_ne (by omega)]
    exact (List.getD_eq_getElem?_getD m k 0).symm

/-- Witness for C7 at concrete inputs: a non-ENU run applies no shift, and
shifting the translation of a concrete matrix leaves entry 3 unchanged. -/
theorem batchRootTransform_spec_witness :
    batchRootTransform (fun _ => 0) (fun _ => 1) (fun _ => 1) false true
        3 1 2 0 5 6 7 =
      calcEnuToEcefMatrix (fun _ => 0) (fun _ => 1) (fun _ => 1) 3 1 2 0 ∧
    (shiftTranslation
        [0, 1, 2, 3, 4, 5, 6, 7, 8, 9, 10, 11, 12, 13, 14, 15]
        (100, 200, 300)).getD 3 0 =
      ([0, 1, 2, 3, 4, 5, 6, 7, 8, 9, 10, 11, 12, 13, 14, 15] :
        List ℚ).getD 3 0 := by
  have h := batchRootTransform_spec (fun _ => 0) (fun _ => 1) (fun _ => 1)
    3 1 2 0 5 6 7
  exact ⟨h.1 false true (by simp), h.2.2 _ _ 3 (by omega)⟩

/-! ## C4 / C8: the LOD tree (`OSGTree`, OSGB23dTiles.h:38-55) and
`CalcGeometricError` (OSGB23dTiles.cpp:311-362). -/

/-- `TileBox` (Tileset.h:31-55): `max` and `min` as double vectors, empty
until resolved. -/
structure TileBox where
  boxMax : List ℚ
  boxMin : List ℚ
  deriving DecidableEq, Repr

/-- `OSGTree` (OSGB23dTiles.h:38-55): bounding box, geometric error, file
name, children, and node type (0 root, 1 paged-LOD, 2 leaf-other). -/
inductive OSGTree where
  | node (bbox : TileBox) (geometricError : ℚ) (fileName : String)
      (subNodes : List OSGTree) (ty : Int)
  deriving Repr

def OSGTree.bbox : OSGTree → TileBox
  | OSGTree.node b _ _ _ _ => b

def OSGTree.geometricError : OSGTree → ℚ
  | OSGTree.node _ g _ _ _ => g

def OSGTree.fileName : OSGTree → String
  | OSGTree.node _ _ f _ _ => f

def OSGTree.subNodes : OSGTree → List OSGTree
  | OSGTree.node _ _ _ s _ => s

def OSGTree.ty : OSGTree → Int
  | OSGTree.node _ _ _ _ t => t

/-- The `abs(e) > EPS` threshold of `CalcGeometricError`
(OSGB23dTiles.cpp:313): the double literal `1e-12`, modelled exactly. -/
def geEPS : ℚ := 1 / 1000000000000

/-- The child-scan loop of `CalcGeometricError` (OSGB23dTiles.cpp:327-336):
`has` starts false and `leaf` is overwritten by every child whose geometric
error exceeds `EPS` in absolute value, so the result is the last such
child (`none` when there is none). -/
def lastBigErrorChild (l : List OSGTree) : Option OSGTree :=
  l.foldl (fun acc i => if |i.geometricError| > geEPS then some i else acc) none

/-- The `GetGeometricError` lambda (OSGB23dTiles.cpp:338-351): 0 for an empty
box, else `max(dx, dy, dz) / 20`. -/
def boxGeometricError (bbox : TileBox) : ℚ :=
  if bbox.boxMax = [] ∨ bbox.boxMin = [] then 0
  else
    let dx := bbox.boxMax.getD 0 0 - bbox.boxMin.getD 0 0
    let dy := bbox.boxMax.getD 1 0 - bbox.boxMin.getD 1 0
    let dz := bbox.boxMax.getD 2 0 - bbox.boxMin.getD 2 0
    max (max dx dy) dz / 20

/-- `CalcGeometricError` (OSGB23dTiles.cpp:311-362): post-order; a node with
no children gets error 0; otherwise twice the error of the last child whose
error exceeds `EPS` in absolute value, or `max(dx,dy,dz)/20` of the node's
own box when no such child exists. -/
def calcGeometricError : OSGTree → OSGTree
  | OSGTree.node bbox _ fileName subNodes ty =>
      let subs2 := subNodes.attach.map (fun s => calcGeometricError s.1)
      let ge2 :=
        if subs2.isEmpty then 0
        else
          match lastBigErrorChild subs2 with
          | some leaf => leaf.geometricError * 2
          | none => boxGeometricError bbox
      OSGTree.node bbox ge2 fileName subs2 ty
termination_by t => sizeOf t
decreasing_by
  simp only [OSGTree.node.sizeOf_spec]
  have := List.sizeOf_lt_of_mem s.2
  omega

/-- All nodes of a tree (the tree itself and, recursively, every node of
every child). -/
def OSGTree.allNodes : OSGTree → List OSGTree
  | OSGTree.node b g f subs t =>
      OSGTree.node b g f subs t ::
        (subs.attach.map (fun s => OSGTree.allNodes s.1)).flatten
termination_by t => sizeOf t
decreasing_by
  simp only [OSGTree.node.sizeOf_spec]
  have := List.sizeOf_lt_of_mem s.2
  omega

/-- Structural induction for `OSGTree` over the nested `List`. -/
theorem OSGTree.inductionOn {motive : OSGTree → Prop}
    (h : ∀ bbox ge fileName subNodes ty,
      (∀ s ∈ subNodes, motive s) →
      motive (OSGTree.node bbox ge fileName subNodes ty)) :
    ∀ t, motive t
  | OSGTree.node b g f subs ty =>
      h b g f subs ty (fun s hs => OSGTree.inductionOn h s)
termination_by t => sizeOf t
decreasing_by
  simp only [OSGTree.node.sizeOf_spec]
  have := List.sizeOf_lt_of_mem hs
  omega

/-- The root-error override in `OSGB23dTiles::ToB3DM`
(OSGB23dTiles.cpp:588-590): `CalcGeometricError(root);
root.geometricError = 1000.0`. -/
def toB3DMRootOverride (t : OSGTree) : OSGTree :=
  match calcGeometricError t with
  | OSGTree.node b _ f s ty => OSGTree.node b 1000 f s ty

/-- The dataset-root geometric error set by `OSGB23dTiles::ToB3DMBatch`
(OSGB23dTiles.cpp:2207): `rootNode.geometricError = 2000`. -/
def batchRootNodeGeometricError : ℚ := 2000

/-- The per-node geometric-error equation established by
`CalcGeometricError`. -/
def geNodeSpec (n : OSGTree) : Prop :=
  (n.subNodes = [] → n.geometricError = 0) ∧
  (n.subNodes ≠ [] →
    (∀ c, lastBigErrorChild n.subNodes = some c →
      n.geometricError = c.geometricError * 2) ∧
    (lastBigErrorChild n.subNodes = none →
      n.geometricError = boxGeometricError n.bbox))

theorem lastBigErrorChild_concat (l : List OSGTree) (x : OSGTree) :
    lastBigErrorChild (l ++ [x]) =
      if |x.geometricError| > geEPS then some x else lastBigErrorChild l := by
  simp only [lastBigErrorChild, List.foldl_append, List.foldl_cons, List.foldl_nil]

theorem lastBigErrorChild_none_spec (l : List OSGTree)
    (h : lastBigErrorChild l = none) :
    ∀ d ∈ l, ¬(|d.geometricError| > geEPS) := by
  induction l using List.reverseRecOn with
  | nil => intro d hd; simp at hd
  | append_singleton l x ih =>
      rw [lastBigErrorChild_concat] at h
      by_cases hx : |x.geometricError| > geEPS
      · rw [if_pos hx] at h; exact absurd h (by simp)
      · rw [if_neg hx] at h
        intro d hd
        rcases List.mem_append.mp hd with hd | hd
        · exact ih h d hd
        · rw [List.mem_singleton.mp hd]; exact hx

theorem lastBigErrorChild_some_spec (l : List OSGTree) (c : OSGTree)
    (h : lastBigErrorChild l = some c) :
    ∃ l1 l2, l = l1 ++ c :: l2 ∧ |c.geometricError| > geEPS ∧
      ∀ d ∈ l2, ¬(|d.geometricError| > geEPS) := by
  induction l using List.reverseRecOn with
  | nil => exact absurd h (by simp [lastBigErrorChild])
  | append_singleton l x ih =>
      rw [lastBigErrorChild_concat] at h
      by_cases hx : |x.geometricError| > geEPS
      · rw [if_pos hx] at h
        obtain rfl : x = c := by simpa using h
        exact ⟨l, [], rfl, hx, by simp⟩
      · rw [if_neg hx] at h
        obtain ⟨l1, l2, rfl, hc, hl2⟩ := ih h
        refine ⟨l1, l2 ++ [x], by simp, hc, ?_⟩
        intro d hd
        rcases List.mem_append.mp hd with hd | hd
        · exact hl2 d hd
        · rw [List.mem_singleton.mp hd]; exact hx

theorem calcGeometricError_nodes (t : OSGTree) :
    ∀ n ∈ (calcGeometricError t).allNodes, geNodeSpec n := by
  induction t using OSGTree.inductionOn with
  | h b g f subs ty ih =>
      intro n hn
      rw [calcGeometricError] at hn
      rw [OSGTree.allNodes] at hn
      rcases List.mem_cons.mp hn with rfl | hn
      · constructor
        · intro hempty
          simp only [OSGTree.subNodes] at hempty
          simp only [OSGTree.geometricError]
          rw [hempty]
          simp
        · intro hne
          simp only [OSGTree.subNodes] at hne ⊢
          have hb : (subs.attach.map
              (fun s => calcGeometricError s.1)).isEmpty = false := by
            simpa [List.isEmpty_iff] using hne
          constructor
          · intro c hc
            simp only [OSGTree.geometricError, hb, Bool.false_eq_true,
              if_false, hc]
          · intro hc
            simp only [OSGTree.geometricError, OSGTree.bbox, hb,
              Bool.false_eq_true, if_false, hc]
      · obtain ⟨m, hmMem, hnm⟩ := List.mem_flatten.mp hn
        obtain ⟨s, _, hsm⟩ := List.mem_map.mp hmMem
        obtain ⟨u, _, hus⟩ := List.mem_map.mp s.2
        subst hsm
        rw [← hus] at hnm
        exact ih u.1 u.2 n hnm

/-- Claim C4: after the post-order pass, every childless node has geometric
error 0; every node with children has error equal to twice the error of the
last child whose error exceeds 1e-12 in absolute value, or, when no such
child exists, `max(dx,dy,dz)/20` of its own (non-empty) bounding box; and
the per-tile root's error is then overridden to 1000 while the dataset root
carries 2000. -/
theorem calcGeometricError_spec (t : OSGTree) :
    (∀ n ∈ (calcGeometricError t).allNodes, geNodeSpec n) ∧
    (∀ (l : List OSGTree) (c : OSGTree), lastBigErrorChild l = some c →
      ∃ l1 l2, l = l1 ++ c :: l2 ∧ |c.geometricError| > geEPS ∧
        ∀ d ∈ l2, ¬(|d.geometricError| > geEPS)) ∧
    (∀ l : List OSGTree, lastBigErrorChild l = none →
      ∀ d ∈ l, ¬(|d.geometricError| > geEPS)) ∧
    (∀ bm bn : List ℚ, bm ≠ [] → bn ≠ [] →
      boxGeometricError ⟨bm, bn⟩ =
        max (max (bm.getD 0 0 - bn.getD 0 0) (bm.getD 1 0 - bn.getD 1 0))
          (bm.getD 2 0 - bn.getD 2 0) / 20) ∧
    (toB3DMRootOverride t).geometricError = 1000 ∧
    batchRootNodeGeometricError = 2000 := by
  refine ⟨calcGeometricError_nodes t,
    fun l c h => lastBigErrorChild_some_spec l c h,
    fun l h => lastBigErrorChild_none_spec l h, ?_, ?_, rfl⟩
  · intro bm bn hm hn
    rw [boxGeometricError, if_neg (by simp [hm, hn])]
  · rw [toB3DMRootOverride]
    cases calcGeometricError t with
    | node b g f s ty => rfl

theorem self_mem_allNodes (t : OSGTree) : t ∈ t.allNodes := by
  cases t with
  | node b g f s ty =>
      rw [OSGTree.allNodes]
      exact List.mem_cons_self _ _

/-- Witness for C4 on a concrete two-node tree and concrete child lists. -/
theorem calcGeometricError_spec_witness :
    geNodeSpec (calcGeometricError (OSGTree.node ⟨[3, 4, 5], [1, 1, 1]⟩ 7 "r"
      [OSGTree.node ⟨[], []⟩ 9 "c" [] 1] 1)) ∧
    (∃ l1 l2, ([OSGTree.node ⟨[], []⟩ 1 "x" [] 1] : List OSGTree) =
        l1 ++ OSGTree.node ⟨[], []⟩ 1 "x" [] 1 :: l2 ∧
      |(OSGTree.node ⟨[], []⟩ 1 "x" [] 1).geometricError| > geEPS ∧
      ∀ d ∈ l2, ¬(|d.geometricError| > geEPS)) ∧
    (∀ d ∈ ([] : List OSGTree), ¬(|d.geometricError| > geEPS)) ∧
    boxGeometricError ⟨[3, 4, 5], [1, 1, 1]⟩ =
      max (max ((3 : ℚ) - 1) (4 - 1)) (5 - 1) / 20 := by
  have h := calcGeometricError_spec (OSGTree.node ⟨[3, 4, 5], [1, 1, 1]⟩ 7 "r"
    [OSGTree.node ⟨[], []⟩ 9 "c" [] 1] 1)
  have hsome : lastBigErrorChild [OSGTree.node ⟨[], []⟩ 1 "x" [] 1] =
      some (OSGTree.node ⟨[], []⟩ 1 "x" [] 1) := by
    simp only [lastBigErrorChild, List.foldl_cons, List.foldl_nil,
      OSGTree.geometricError]
    rw [if_pos]
    norm_num [geEPS]
  refine ⟨h.1 _ (self_mem_allNodes _), h.2.1 _ _ hsome,
    h.2.2.1 [] rfl, ?_⟩
  have h4 := h.2.2.2.1 [3, 4, 5] [1, 1, 1] (by simp) (by simp)
  simpa [List.getD] using h4

/-! ## C8: `GetAllTree` (OSGB23dTiles.cpp:1746-1798) and `DoTileJob`
(OSGB23dTiles.cpp:1655-1691).

The external scene-graph loader (`osgDB::readNodeFiles` + `InfoVisitor`) is
modelled as a map from a file path to the information the visitor extracts:
the child file references collected from paged-LOD nodes and whether the
paged-LOD / other geometry buckets are non-empty; `none` models a load
failure.  Recursion is fuelled, as the C++ recursion has no cycle guard.
The GLB serialization itself is abstracted: a file whose selected geometry
bucket is non-empty is taken to convert successfully. -/

/-- What the loader + `InfoVisitor` yield for one scene-graph file. -/
structure LoadedFile where
  subNodeNames : List String
  hasGeometry : Bool
  hasOtherGeometry : Bool

/-- The default-constructed `OSGTree` (OSGB23dTiles.h:38-55): empty box,
error 0, empty file name, no children, type 0. -/
def emptyOSGTree : OSGTree := OSGTree.node ⟨[], []⟩ 0 "" [] 0

/-- `OSGB23dTiles::GetAllTree` (OSGB23dTiles.cpp:1746-1798).  A failed load
returns the default (empty-path) node; otherwise the node gets the file
name and type 1, children are collected from the sub-node references
(skipping empty results and inlining type-0 results), and when both the
`other` and the paged geometry buckets are non-empty the node is wrapped
under a type-0 root with a type-2 leaf-other sibling. -/
def getAllTree (env : String → Option LoadedFile) : Nat → String → OSGTree
  | 0, _ => emptyOSGTree
  | fuel + 1, fileName =>
      match env fileName with
      | none => emptyOSGTree
      | some f =>
          let subs := f.subNodeNames.foldl (fun acc nm =>
            let t := getAllTree env fuel nm
            if t.fileName = "" then acc
            else if t.ty = 0 then acc ++ t.subNodes
            else acc ++ [t]) []
          let rootTile := OSGTree.node ⟨[], []⟩ 0 fileName subs 1
          if f.hasOtherGeometry && f.hasGeometry then
            OSGTree.node ⟨[], []⟩ 0 fileName
              [rootTile, OSGTree.node ⟨[], []⟩ 0 fileName [] 2] 0
          else rootTile

/-- What one sub-node reference contributes to the parent's child list in
`GetAllTree` (OSGB23dTiles.cpp:1765-1782): nothing for a failed load,
the node's children for a type-0 node, the node itself otherwise. -/
def childContribution (env : String → Option LoadedFile) (fuel : Nat)
    (nm : String) : List OSGTree :=
  let t := getAllTree env fuel nm
  if t.fileName = "" then []
  else if t.ty = 0 then t.subNodes
  else [t]

/-- The geometry-bucket selection at the top of `ToGLBBuf`
(OSGB23dTiles.cpp:1338-1356): a failed load fails; for `node_type == 2` or
an empty paged bucket the `other` bucket is used; conversion succeeds iff
the selected bucket is non-empty (the downstream mesh/GLB serialization is
abstracted as succeeding). -/
def toGLBBufOk (env : String → Option LoadedFile) (path : String)
    (nodeType : Int) : Bool :=
  match env path with
  | none => false
  | some f =>
      if nodeType = 2 || !f.hasGeometry then f.hasOtherGeometry
      else f.hasGeometry

/-- `OSGB23dTiles::DoTileJob` (OSGB23dTiles.cpp:1655-1691), modelled as the
list of `(file name, node type)` pairs for which a B3DM file is written:
nothing for an empty path or a node above the level cap; a node of positive
type writes exactly when its conversion succeeds; children are processed
regardless. -/
def doTileJob (env : String → Option LoadedFile) (lvlOf : String → Int)
    (maxLvl : Int) : OSGTree → List (String × Int)
  | OSGTree.node _ _ f subs ty =>
      if f = "" then []
      else if maxLvl ≠ -1 ∧ lvlOf f > maxLvl then []
      else
        (if ty > 0 then
          if toGLBBufOk env f ty then [(f, ty)] else []
        else []) ++
        (subs.attach.map (fun s => doTileJob env lvlOf maxLvl s.1)).flatten
termination_by t => sizeOf t
decreasing_by
  simp only [OSGTree.node.sizeOf_spec]
  have := List.sizeOf_lt_of_mem s.2
  omega

theorem getAllTree_subs_foldl (env : String → Option LoadedFile) (fuel : Nat) :
    ∀ (names : List String) (acc : List OSGTree),
      names.foldl (fun acc nm =>
        let t := getAllTree env fuel nm
        if t.fileName = "" then acc
        else if t.ty = 0 then acc ++ t.subNodes
        else acc ++ [t]) acc =
      acc ++ (names.map (childContribution env fuel)).flatten
  | [], acc => by simp
  | nm :: rest, acc => by
      have ih := getAllTree_subs_foldl env fuel rest
      simp only [List.foldl_cons, List.map_cons, List.flatten_cons]
      rw [childContribution]
      by_cases h1 : (getAllTree env fuel nm).fileName = ""
      · rw [if_pos h1, if_pos h1, ih, List.nil_append]
      · rw [if_neg h1, if_neg h1]
        by_cases h2 : (getAllTree env fuel nm).ty = 0
        · rw [if_pos h2, if_pos h2, ih, List.append_assoc]
        · rw [if_neg h2, if_neg h2, ih, List.append_assoc]

/-- Claim C8: a failed scene-graph load yields the empty-path default node;
the parent skips failed children and keeps the contributions of the
remaining references unchanged; a file that loads but has no drawables is
kept in the tree (it gets its path and type 1) yet its conversion fails, so
`DoTileJob` writes no B3DM for it and still processes its children. -/
theorem getAllTree_failure_spec (env : String → Option LoadedFile)
    (lvlOf : String → Int) (fuel : Nat) (p bad : String) (f : LoadedFile) :
    (env p = none → getAllTree env (fuel + 1) p = emptyOSGTree) ∧
    (env p = some f → (f.hasOtherGeometry && f.hasGeometry) = false →
      getAllTree env (fuel + 1) p =
        OSGTree.node ⟨[], []⟩ 0 p
          ((f.subNodeNames.map (childContribution env fuel)).flatten) 1) ∧
    (env bad = none → childContribution env (fuel + 1) bad = []) ∧
    (∀ pre post : List String, env bad = none →
      ((pre ++ bad :: post).map (childContribution env (fuel + 1))).flatten =
      ((pre ++ post).map (childContribution env (fuel + 1))).flatten) ∧
    (env p = some f → p ≠ "" → f.hasGeometry = false →
      f.hasOtherGeometry = false →
      (getAllTree env (fuel + 1) p).fileName = p ∧
      (getAllTree env (fuel + 1) p).ty = 1 ∧
      toGLBBufOk env p 1 = false ∧
      doTileJob env lvlOf (-1) (getAllTree env (fuel + 1) p) =
        ((getAllTree env (fuel + 1) p).subNodes.map
          (doTileJob env lvlOf (-1))).flatten) := by
  have hcontrib : env bad = none → childContribution env (fuel + 1) bad = [] := by
    intro h
    rw [childContribution]
    simp [getAllTree, h, emptyOSGTree, OSGTree.fileName]
  refine ⟨?_, ?_, hcontrib, ?_, ?_⟩
  · intro h
    simp [getAllTree, h]
  · intro h hflags
    rw [getAllTree]
    rw [h]
    simp only [hflags, Bool.false_eq_true, if_false]
    rw [getAllTree_subs_foldl env fuel f.subNodeNames [], List.nil_append]
  · intro pre post h
    simp [List.map_append, List.flatten_append, hcontrib h]
  · intro h hp hg ho
    have htree : getAllTree env (fuel + 1) p =
        OSGTree.node ⟨[], []⟩ 0 p
          ((f.subNodeNames.map (childContribution env fuel)).flatten) 1 := by
      rw [getAllTree]
      rw [h]
      simp only [ho, Bool.false_and, Bool.false_eq_true, if_false]
      rw [getAllTree_subs_foldl env fuel f.subNodeNames [], List.nil_append]
    have hok : toGLBBufOk env p 1 = false := by
      rw [toGLBBufOk]
      rw [h]
      simp [hg, ho]
    refine ⟨by rw [htree]; rfl, by rw [htree]; rfl, hok, ?_⟩
    rw [htree]
    rw [doTileJob]
    rw [if_neg hp, if_neg (by simp)]
    simp only [OSGTree.subNodes]
    rw [if_pos (by norm_num), if_neg (by rw [hok]; simp)]
    rw [List.nil_append]
    congr 1
    exact List.attach_map_val _ _

/-- Witness for C8 with a one-file environment in which `"p"` loads with a
single failing child reference `"bad"` and no drawables. -/
theorem getAllTree_failure_spec_witness :
    getAllTree (fun s => if s = "p" then some ⟨["bad"], false, false⟩ else none)
      1 "bad" = emptyOSGTree ∧
    childContribution
      (fun s => if s = "p" then some ⟨["bad"], false, false⟩ else none)
      1 "bad" = [] ∧
    toGLBBufOk (fun s => if s = "p" then some ⟨["bad"], false, false⟩ else none)
      "p" 1 = false ∧
    doTileJob (fun s => if s = "p" then some ⟨["bad"], false, false⟩ else none)
      (fun _ => 0) (-1)
      (getAllTree
        (fun s => if s = "p" then some ⟨["bad"], false, false⟩ else none)
        1 "p") = [] := by
  have h := getAllTree_failure_spec
    (fun s => if s = "p" then some ⟨["bad"], false, false⟩ else none)
    (fun _ => 0) 0 "p" "bad" ⟨["bad"], false, false⟩
  have h2 := getAllTree_failure_spec
    (fun s => if s = "p" then some ⟨["bad"], false, false⟩ else none)
    (fun _ => 0) 0 "bad" "bad" ⟨["bad"], false, false⟩
  refine ⟨h2.1 rfl, h.2.2.1 rfl,
    (h.2.2.2.2 rfl (by decide) rfl rfl).2.2.1, ?_⟩
  rw [(h.2.2.2.2 rfl (by decide) rfl rfl).2.2.2]
  rfl

/-! ## C9: `MeshProcessor::ProcessTexture` (MeshProcessor.cpp:112-320).

The Basis Universal KTX2 compressor and the stb JPEG encoder are external
libraries; they are abstracted as function parameters (`ktx2Compress`, which
may fail, and `jpegEncode`, which returns the encoded bytes for a
width/height/channels/pixel-data/quality tuple). -/

/-- The pixel formats `ProcessTexture` distinguishes
(MeshProcessor.cpp:149-236, 259-296); anything else falls into the
`default` branches. -/
inductive PixelFormat where
  | rgba
  | rgb
  | bgra
  | other
  deriving DecidableEq, Repr

/-- One `osg::Image`: dimensions, pixel format, row stride and row size in
bytes (row padding when they differ), and the raw bytes. -/
structure OsgImage where
  width : Nat
  height : Nat
  format : PixelFormat
  rowStep : Nat
  rowSize : Nat
  data : List Nat

/-- One `osg::Texture`: its image list (`getNumImages` / `getImage(0)`). -/
structure OsgTexture where
  images : List OsgImage

/-- The RGBA extraction of the KTX2 path (MeshProcessor.cpp:142-236):
RGBA copied (row padding honoured), RGB expanded with alpha 255, BGRA
swapped to RGBA; any other format leaves the buffer empty. -/
def rgbaFromImage (img : OsgImage) : List Nat :=
  match img.format with
  | PixelFormat.rgba =>
      if img.rowStep ≠ img.rowSize then
        (List.range img.height).map (fun row =>
          (List.range (img.width * 4)).map (fun j =>
            img.data.getD (row * img.rowStep + j) 0)) |>.flatten
      else img.data
  | PixelFormat.rgb =>
      (List.range img.height).map (fun row =>
        (List.range img.width).map (fun col =>
          let src := if img.rowStep ≠ img.rowSize then
            row * img.rowStep + col * 3
          else (row * img.width + col) * 3
          [img.data.getD src 0, img.data.getD (src + 1) 0,
           img.data.getD (src + 2) 0, 255]) |>.flatten) |>.flatten
  | PixelFormat.bgra =>
      (List.range img.height).map (fun row =>
        (List.range img.width).map (fun col =>
          let src := if img.rowStep ≠ img.rowSize then
            row * img.rowStep + col * 4
          else (row * img.width + col) * 4
          [img.data.getD (src + 2) 0, img.data.getD (src + 1) 0,
           img.data.getD src 0, img.data.getD (src + 3) 0]) |>.flatten) |>.flatten
  | PixelFormat.other => []

/-- The RGB extraction of the JPEG fallback path (MeshProcessor.cpp:259-296):
RGBA/BGRA drop (and for BGRA swap) the first three channels with a tight
`width*4` stride, RGB copies `rowSize` bytes per row honouring `rowStep`;
any other format leaves the buffer empty. -/
def jpegBufFromImage (img : OsgImage) : List Nat :=
  match img.format with
  | PixelFormat.rgba =>
      (List.range img.height).map (fun i =>
        (List.range img.width).map (fun j =>
          [img.data.getD (i * img.width * 4 + j * 4) 0,
           img.data.getD (i * img.width * 4 + j * 4 + 1) 0,
           img.data.getD (i * img.width * 4 + j * 4 + 2) 0]) |>.flatten) |>.flatten
  | PixelFormat.bgra =>
      (List.range img.height).map (fun i =>
        (List.range img.width).map (fun j =>
          [img.data.getD (i * img.width * 4 + j * 4 + 2) 0,
           img.data.getD (i * img.width * 4 + j * 4 + 1) 0,
           img.data.getD (i * img.width * 4 + j * 4) 0]) |>.flatten) |>.flatten
  | PixelFormat.rgb =>
      (List.range img.height).map (fun i =>
        (List.range img.rowSize).map (fun j =>
          img.data.getD (img.rowStep * i + j) 0)) |>.flatten
  | PixelFormat.other => []

/-- `MeshProcessor::ProcessTexture` (MeshProcessor.cpp:112-320).  A null
texture or a texture without an image returns failure (`none`,
MeshProcessor.cpp:114-127).  With texture compression enabled and a
non-empty RGBA extraction, a successful KTX2 compression returns
`image/ktx2`; otherwise the JPEG path encodes the extracted RGB buffer at
quality 80, falling back to an all-white 256 x 256 image when that buffer is
empty. -/
def processTexture
    (ktx2Compress : List Nat → Nat → Nat → Option (List Nat))
    (jpegEncode : Nat → Nat → Nat → List Nat → Nat → List Nat)
    (tex : Option OsgTexture) (enableTextureCompress : Bool) :
    Option (List Nat × String) :=
  match tex with
  | none => none
  | some t =>
      match t.images.head? with
      | none => none
      | some img =>
          let ktxResult :=
            if enableTextureCompress then
              let rgbaData := rgbaFromImage img
              if rgbaData ≠ [] then
                ktx2Compress rgbaData img.width img.height
              else none
            else none
          match ktxResult with
          | some blob => some (blob, "image/ktx2")
          | none =>
              let jpegBuf := jpegBufFromImage img
              if jpegBuf ≠ [] then
                some (jpegEncode img.width img.height 3 jpegBuf 80,
                  "image/jpeg")
              else
                some (jpegEncode 256 256 3 (List.replicate (256 * 256 * 3) 255)
                  80, "image/jpeg")

/-- Counterexample to claim C9 as stated: a texture with no image makes
`ProcessTexture` FAIL (`return false` at MeshProcessor.cpp:114-127); no
256 x 256 white fallback is emitted for it.  (The caller `ToGLBBuf` then
skips the image, OSGB23dTiles.cpp:1432.) -/
theorem processTexture_no_image_fails :
    processTexture (fun _ _ _ => none) (fun _ _ _ _ _ => [])
      (some ⟨[]⟩) false = none := rfl

/-- Claim C9 (amended): a null texture or a texture whose texture object has
no image makes `ProcessTexture` fail (no fallback); for a texture with an
image whose pixel format is none of RGBA, BGRA, or RGB, a 256 x 256 white
JPEG fallback at quality 80 is emitted (with or without texture
compression). -/
theorem processTexture_spec
    (ktx2Compress : List Nat → Nat → Nat → Option (List Nat))
    (jpegEncode : Nat → Nat → Nat → List Nat → Nat → List Nat)
    (img : OsgImage) (rest : List OsgImage) (c : Bool) :
    processTexture ktx2Compress jpegEncode none c = none ∧
    processTexture ktx2Compress jpegEncode (some ⟨[]⟩) c = none ∧
    (img.format = PixelFormat.other →
      processTexture ktx2Compress jpegEncode (some ⟨img :: rest⟩) c =
        some (jpegEncode 256 256 3 (List.replicate (256 * 256 * 3) 255) 80,
          "image/jpeg")) := by
  refine ⟨rfl, rfl, ?_⟩
  intro hfmt
  obtain ⟨w, h, fmt, rs, rsz, d⟩ := img
  have hf : fmt = PixelFormat.other := hfmt
  subst hf
  cases c with
  | false => rfl
  | true => rfl

/-- Witness for C9 (amended) at a concrete unsupported-format texture. -/
theorem processTexture_spec_witness :
    processTexture (fun _ _ _ => none) (fun w h ch _ q => [w, h, ch, q])
      (some ⟨[⟨2, 2, PixelFormat.other, 0, 0, []⟩]⟩) true =
      some ([256, 256, 3, 80], "image/jpeg") := by
  have h := (processTexture_spec (fun _ _ _ => none)
    (fun w h ch _ q => [w, h, ch, q])
    ⟨2, 2, PixelFormat.other, 0, 0, []⟩ [] true).2.2 rfl
  rw [h]

/-! ## C6: `OSGB23dTiles::EncodeTileJSON` (OSGB23dTiles.cpp:1693-1744).

The JSON text is modelled as `List Char` (a faithful model of the
`std::string` the code builds by concatenation).  `std::to_string(double)`
("%f", six decimals) is modelled by `fmtF6`, with round-half-up on the
magnitude (the exact rounding of the last decimal is immaterial to the
claims proved here).  The URI munging
`OSGBTools::Replace(OSGBTools::GetFileName(file_name), ".osgb", ...)` is
abstracted as a function parameter `uriOf`. -/

/-- The decimal digit characters. -/
def digitChars : List Char :=
  ['0', '1', '2', '3', '4', '5', '6', '7', '8', '9']

/-- Most-significant-first decimal digits of `n`, with structural fuel
(`n + 1` suffices since a number has at most `n + 1` digits). -/
def natDigitsAux : Nat → Nat → List Char
  | 0, _ => []
  | fuel + 1, n =>
      if n < 10 then [Char.ofNat (48 + n)]
      else natDigitsAux fuel (n / 10) ++ [Char.ofNat (48 + n % 10)]

/-- Decimal rendering of a natural number. -/
def natDigitChars (n : Nat) : List Char :=
  natDigitsAux (n + 1) n

theorem digit_char_mem (d : Nat) (h : d < 10) :
    Char.ofNat (48 + d) ∈ digitChars := by
  interval_cases d <;> decide

theorem natDigitsAux_chars : ∀ (fuel n : Nat), ∀ ch ∈ natDigitsAux fuel n,
    ch ∈ digitChars
  | 0, n => by intro ch h; simp [natDigitsAux] at h
  | fuel + 1, n => by
      intro ch h
      rw [natDigitsAux] at h
      by_cases hn : n < 10
      · rw [if_pos hn] at h
        rw [List.mem_singleton.mp h]
        exact digit_char_mem n hn
      · rw [if_neg hn] at h
        rcases List.mem_append.mp h with h | h
        · exact natDigitsAux_chars fuel (n / 10) ch h
        · rw [List.mem_singleton.mp h]
          exact digit_char_mem (n % 10) (Nat.mod_lt _ (by omega))

/-- `std::to_string(double)`: "%f" with six decimals (sign, integer part,
'.', six zero-padded fractional digits). -/
def fmtF6 (q : ℚ) : List Char :=
  let scaled := (⌊|q| * 1000000 + 1 / 2⌋).toNat
  let ip := scaled / 1000000
  let fp := scaled % 1000000
  let fpd := natDigitChars fp
  (if q < 0 then ['-'] else []) ++ natDigitChars ip ++ ['.'] ++
    (List.replicate (6 - fpd.length) '0' ++ fpd)

theorem fmtF6_chars (q : ℚ) : ∀ ch ∈ fmtF6 q, ch ∈ '-' :: '.' :: digitChars := by
  intro ch h
  simp only [fmtF6] at h
  rcases List.mem_append.mp h with h | h
  · rcases List.mem_append.mp h with h | h
    · rcases List.mem_append.mp h with h | h
      · by_cases hq : q < 0
        · rw [if_pos hq] at h
          rw [List.mem_singleton.mp h]
          exact List.mem_cons_self _ _
        · rw [if_neg hq] at h
          simp at h
      · exact List.mem_cons_of_mem _ (List.mem_cons_of_mem _
          (natDigitsAux_chars _ _ ch h))
    · rw [List.mem_singleton.mp h]
      exact List.mem_cons_of_mem _ (List.mem_cons_self _ _)
  · rcases List.mem_append.mp h with h | h
    · rw [List.eq_of_mem_replicate h]
      exact List.mem_cons_of_mem _ (List.mem_cons_of_mem _ (by decide))
    · exact List.mem_cons_of_mem _ (List.mem_cons_of_mem _
        (natDigitsAux_chars _ _ ch h))

theorem fmtF6_no_R (q : ℚ) : 'R' ∉ fmtF6 q := by
  intro h
  have := fmtF6_chars q 'R' h
  revert this
  decide

/-- Modelled from the spec: `BoundingVolume::ToJson` and
`BoundingVolumeFromTileBox` are declared in Tileset.h:80-114 but defined
outside src/.  Per spec section 4.6 and the comment at Tileset.h:78, the box
form renders `"boundingVolume":{"box":[cx,cy,cz, hx,0,0, 0,hy,0, 0,0,hz]}`
with center `(min+max)/2` and half-extents floored at 0.005. -/
def boundingVolumeToJsonChars (bbox : TileBox) : List Char :=
  let cx := (bbox.boxMax.getD 0 0 + bbox.boxMin.getD 0 0) / 2
  let cy := (bbox.boxMax.getD 1 0 + bbox.boxMin.getD 1 0) / 2
  let cz := (bbox.boxMax.getD 2 0 + bbox.boxMin.getD 2 0) / 2
  let hx := max ((bbox.boxMax.getD 0 0 - bbox.boxMin.getD 0 0) / 2) (5 / 1000)
  let hy := max ((bbox.boxMax.getD 1 0 - bbox.boxMin.getD 1 0) / 2) (5 / 1000)
  let hz := max ((bbox.boxMax.getD 2 0 - bbox.boxMin.getD 2 0) / 2) (5 / 1000)
  ("\"boundingVolume\":\x7b\"box\":[").toList ++
    fmtF6 cx ++ [','] ++ fmtF6 cy ++ [','] ++ fmtF6 cz ++ [','] ++
    fmtF6 hx ++ (",0,0,0,").toList ++ fmtF6 hy ++ (",0,0,0,").toList ++
    fmtF6 hz ++ ("]\x7d").toList

theorem boundingVolumeToJsonChars_no_R (bbox : TileBox) :
    'R' ∉ boundingVolumeToJsonChars bbox := by
  intro h
  simp only [boundingVolumeToJsonChars, List.append_assoc,
    List.mem_append] at h
  rcases h with h | h | h | h | h | h | h | h | h | h | h | h | h
  all_goals first
    | exact fmtF6_no_R _ h
    | (revert h; decide)

/-- `OSGB23dTiles::EncodeTileJSON` (OSGB23dTiles.cpp:1693-1744): empty
output for an unresolved box; otherwise an object with `geometricError`,
the bounding volume, `content.uri` (`"./" ++ uri` when `type > 0`, with the
b3dm URI abstracted as `uriOf file_name type`), and a `children` array of
the non-empty child encodings, with the trailing comma removed. -/
def encodeTileJSON (uriOf : String → Int → String) : OSGTree → List Char
  | OSGTree.node bbox ge fileName subs ty =>
      if bbox.boxMax = [] ∨ bbox.boxMin = [] then []
      else
        let contentPart :=
          if ty > 0 then
            (",\"content\":\x7b\"uri\":\"./").toList ++
              (uriOf fileName ty).toList ++ ("\"\x7d").toList
          else []
        let base := ("\x7b\"geometricError\":").toList ++ fmtF6 ge ++
          [','] ++ boundingVolumeToJsonChars bbox ++ contentPart ++
          (",\"children\":[").toList
        let childrenJson := subs.attach.map (fun s => encodeTileJSON uriOf s.1)
        let withChildren := childrenJson.foldl (fun acc cj =>
          if cj ≠ [] then acc ++ cj ++ [','] else acc) base
        let trimmed := if withChildren.getLast? = some ',' then
            withChildren.dropLast
          else withChildren
        trimmed ++ ("]\x7d").toList
termination_by t => sizeOf t
decreasing_by
  simp only [OSGTree.node.sizeOf_spec]
  have := List.sizeOf_lt_of_mem s.2
  omega

theorem foldl_children_no_R (cjs : List (List Char)) (acc : List Char)
    (hacc : 'R' ∉ acc) (hcjs : ∀ cj ∈ cjs, 'R' ∉ cj) :
    'R' ∉ cjs.foldl (fun acc cj =>
      if cj ≠ [] then acc ++ cj ++ [','] else acc) acc := by
  induction cjs generalizing acc with
  | nil => exact hacc
  | cons cj rest ih =>
      simp only [List.foldl_cons]
      refine ih _ ?_ (fun x hx => hcjs x (List.mem_cons_of_mem _ hx))
      by_cases hne : cj ≠ []
      · rw [if_pos hne]
        intro hmem
        rcases List.mem_append.mp hmem with hmem | hmem
        · rcases List.mem_append.mp hmem with hmem | hmem
          · exact hacc hmem
          · exact hcjs cj (List.mem_cons_self _ _) hmem
        · revert hmem; decide
      · rw [if_neg hne]
        exact hacc

/-- Membership of a child's node in the parent's `allNodes`. -/
theorem mem_allNodes_of_mem_child (b : TileBox) (g : ℚ) (f : String)
    (subs : List OSGTree) (ty : Int) (s : OSGTree) (hs : s ∈ subs)
    (n : OSGTree) (hn : n ∈ s.allNodes) :
    n ∈ (OSGTree.node b g f subs ty).allNodes := by
  rw [OSGTree.allNodes]
  refine List.mem_cons_of_mem _ (List.mem_flatten.mpr ⟨s.allNodes, ?_, hn⟩)
  exact List.mem_map.mpr ⟨⟨s, hs⟩, List.mem_attach _ _, rfl⟩

/-- No `'R'` character ever appears in the output of `EncodeTileJSON`,
provided none appears in any node's content URI. -/
theorem encodeTileJSON_no_R (uriOf : String → Int → String) (t : OSGTree)
    (h : ∀ n ∈ t.allNodes, 'R' ∉ (uriOf n.fileName n.ty).toList) :
    'R' ∉ encodeTileJSON uriOf t := by
  induction t using OSGTree.inductionOn with
  | h b g f subs ty ih =>
      rw [encodeTileJSON]
      by_cases hbox : b.boxMax = [] ∨ b.boxMin = []
      · rw [if_pos hbox]
        simp
      · rw [if_neg hbox]
        intro hmem
        rcases List.mem_append.mp hmem with hmem | hmem
        · have hR : 'R' ∉ (if ((subs.attach.map
              (fun s => encodeTileJSON uriOf s.1)).foldl (fun acc cj =>
                if cj ≠ [] then acc ++ cj ++ [','] else acc)
                (("\x7b\"geometricError\":").toList ++ fmtF6 g ++ [','] ++
                  boundingVolumeToJsonChars b ++
                  (if ty > 0 then
                    (",\"content\":\x7b\"uri\":\"./").toList ++
                      (uriOf f ty).toList ++ ("\"\x7d").toList
                  else []) ++ (",\"children\":[").toList)).getLast? =
                some ',' then
              ((subs.attach.map (fun s => encodeTileJSON uriOf s.1)).foldl
                (fun acc cj => if cj ≠ [] then acc ++ cj ++ [','] else acc)
                (("\x7b\"geometricError\":").toList ++ fmtF6 g ++ [','] ++
                  boundingVolumeToJsonChars b ++
                  (if ty > 0 then
                    (",\"content\":\x7b\"uri\":\"./").toList ++
                      (uriOf f ty).toList ++ ("\"\x7d").toList
                  else []) ++ (",\"children\":[").toList)).dropLast
            else
              (subs.attach.map (fun s => encodeTileJSON uriOf s.1)).foldl
                (fun acc cj => if cj ≠ [] then acc ++ cj ++ [','] else acc)
                (("\x7b\"geometricError\":").toList ++ fmtF6 g ++ [','] ++
                  boundingVolumeToJsonChars b ++
                  (if ty > 0 then
                    (",\"content\":\x7b\"uri\":\"./").toList ++
                      (uriOf f ty).toList ++ ("\"\x7d").toList
                  else []) ++ (",\"children\":[").toList)) := by
            have hbase : 'R' ∉ ("\x7b\"geometricError\":").toList ++ fmtF6 g ++
                [','] ++ boundingVolumeToJsonChars b ++
                (if ty > 0 then
                  (",\"content\":\x7b\"uri\":\"./").toList ++
                    (uriOf f ty).toList ++ ("\"\x7d").toList
                else []) ++ (",\"children\":[").toList := by
              intro hx
              rcases List.mem_append.mp hx with hx | hx
              · rcases List.mem_append.mp hx with hx | hx
                · rcases List.mem_append.mp hx with hx | hx
                  · rcases List.mem_append.mp hx with hx | hx
                    · rcases List.mem_append.mp hx with hx | hx
                      · revert hx; decide
                      · exact fmtF6_no_R g hx
                    · revert hx; decide
                  · exact boundingVolumeToJsonChars_no_R b hx
                · by_cases hty : ty > 0
                  · rw [if_pos hty] at hx
                    rcases List.mem_append.mp hx with hx | hx
                    · rcases List.mem_append.mp hx with hx | hx
                      · revert hx; decide
                      · exact h _ (self_mem_allNodes
                          (OSGTree.node b g f subs ty)) hx
                    · revert hx; decide
                  · rw [if_neg hty] at hx
                    simp at hx
              · revert hx; decide
            have hfold := foldl_children_no_R
              (subs.attach.map (fun s => encodeTileJSON uriOf s.1)) _ hbase
              (by
                intro cj hcj
                obtain ⟨s, _, rfl⟩ := List.mem_map.mp hcj
                exact ih s.1 s.2 (fun n hn =>
                  h n (mem_allNodes_of_mem_child b g f subs ty s.1 s.2 n hn)))
            by_cases hlast : ((subs.attach.map
                (fun s => encodeTileJSON uriOf s.1)).foldl (fun acc cj =>
                  if cj ≠ [] then acc ++ cj ++ [','] else acc)
                  (("\x7b\"geometricError\":").toList ++ fmtF6 g ++ [','] ++
                    boundingVolumeToJsonChars b ++
                    (if ty > 0 then
                      (",\"content\":\x7b\"uri\":\"./").toList ++
                        (uriOf f ty).toList ++ ("\"\x7d").toList
                    else []) ++ (",\"children\":[").toList)).getLast? =
                  some ','
            · rw [if_pos hlast]
              intro hx
              exact hfold (List.dropLast_subset _ hx)
            · rw [if_neg hlast]
              exact hfold
          exact hR hmem
        · revert hmem; decide

/-- Counterexample to claim C6 as stated: `EncodeTileJSON` emits NO
`"refine":"REPLACE"` member even for a node that has children — the function
only ever writes `geometricError`, the bounding volume, an optional
`content`, and `children` (OSGB23dTiles.cpp:1713-1743). -/
theorem encodeTileJSON_refine_counterexample :
    (OSGTree.node ⟨[1, 1, 1], [0, 0, 0]⟩ 10 "a.osgb"
      [OSGTree.node ⟨[1, 1, 1], [0, 0, 0]⟩ 0 "b.osgb" [] 1] 1).subNodes ≠ [] ∧
    ¬(("\"refine\":\"REPLACE\"").toList <:+:
      encodeTileJSON (fun fn _ => fn)
        (OSGTree.node ⟨[1, 1, 1], [0, 0, 0]⟩ 10 "a.osgb"
          [OSGTree.node ⟨[1, 1, 1], [0, 0, 0]⟩ 0 "b.osgb" [] 1] 1)) := by
  constructor
  · simp [OSGTree.subNodes]
  · have hR := encodeTileJSON_no_R (fun fn _ => fn)
      (OSGTree.node ⟨[1, 1, 1], [0, 0, 0]⟩ 10 "a.osgb"
        [OSGTree.node ⟨[1, 1, 1], [0, 0, 0]⟩ 0 "b.osgb" [] 1] 1) ?_
    · exact fun hinf => hR (hinf.subset (by decide))
    · intro n hn
      rw [OSGTree.allNodes] at hn
      rcases List.mem_cons.mp hn with rfl | hn
      · decide
      · obtain ⟨m, hm, hnm⟩ := List.mem_flatten.mp hn
        obtain ⟨s, _, rfl⟩ := List.mem_map.mp hm
        have hs : s.1 = OSGTree.node ⟨[1, 1, 1], [0, 0, 0]⟩ 0 "b.osgb" [] 1 :=
          List.mem_singleton.mp s.2
        rw [hs, OSGTree.allNodes] at hnm
        simp only [List.attach_nil, List.map_nil, List.flatten_nil,
          List.mem_singleton] at hnm
        subst hnm
        decide

/-- Claim C6 (amended): `EncodeTileJSON` never emits a `refine` member for
any node, with or without children; as long as no node's content URI
contains the character 'R', the emitted JSON cannot contain the substring
`"refine":"REPLACE"` at all (the fixed JSON fragments contain no 'R'). -/
theorem encodeTileJSON_no_refine (uriOf : String → Int → String) (t : OSGTree)
    (h : ∀ n ∈ t.allNodes, 'R' ∉ (uriOf n.fileName n.ty).toList) :
    'R' ∉ encodeTileJSON uriOf t ∧
    ¬(("\"refine\":\"REPLACE\"").toList <:+: encodeTileJSON uriOf t) := by
  have hR := encodeTileJSON_no_R uriOf t h
  exact ⟨hR, fun hinf => hR (hinf.subset (by decide))⟩

/-- Witness for C6 (amended) on a concrete single-node tree. -/
theorem encodeTileJSON_no_refine_witness :
    ¬(("\"refine\":\"REPLACE\"").toList <:+:
      encodeTileJSON (fun _ _ => "tile.b3dm")
        (OSGTree.node ⟨[1, 1, 1], [0, 0, 0]⟩ 10 "t.osgb" [] 1)) := by
  refine (encodeTileJSON_no_refine (fun _ _ => "tile.b3dm") _ ?_).2
  intro n hn
  rw [OSGTree.allNodes] at hn
  rcases List.mem_cons.mp hn with rfl | hn
  · decide
  · simp at hn
